import Mathlib

/-
Verification of the document change tracker, autosave snapshot mechanism and
replace-all operation of `src/textEditor.py`.

The Python source is shallowly embedded:
  * strings are `String` / `List Char` (a Lean `Char` is a Unicode scalar
    value, as is each element of a Python `str` produced by this program);
  * `hashlib.sha1(...).hexdigest()` over the UTF-8 encoding is implemented
    bit-for-bit (`sha1`), with 32-bit machine arithmetic expressed as
    `Nat` arithmetic reduced `% 2 ^ 32`;
  * the mutable `Document` object is a record, and each Tk event handler
    becomes a state-passing function;
  * the filesystem is an association list from path to content plus a set of
    paths whose writes fail (`FS`); file operations also produce an explicit
    `FsOp` trace so that frame properties ("no write happened") are visible;
  * `json.dumps` of the snapshot dict and the fragment of `json.loads`
    exercised by recovery (flat objects whose values are strings, numbers,
    booleans or null) are implemented over `List Char`.
-/

/-! ## UTF-8 encoding (`str.encode("utf-8")`)

`sha1` in the source hashes `s.encode("utf-8", errors="ignore")`.  Lean
strings contain no lone surrogates, so `errors="ignore"` never drops
anything and the encoding is the standard 1-4 byte UTF-8 encoding. -/

def utf8EncodeChar (c : Char) : List Nat :=
  let n := c.toNat
  if n < 0x80 then [n]
  else if n < 0x800 then [0xC0 + n / 64, 0x80 + n % 64]
  else if n < 0x10000 then [0xE0 + n / 4096, 0x80 + n / 64 % 64, 0x80 + n % 64]
  else [0xF0 + n / 0x40000, 0x80 + n / 4096 % 64, 0x80 + n / 64 % 64, 0x80 + n % 64]

def utf8Encode (s : String) : List Nat :=
  (s.data.map utf8EncodeChar).flatten

/-! ## SHA-1 (`hashlib.sha1(...).hexdigest()`) -/

/-- Left-rotation of a 32-bit word. -/
def rotl32 (k x : Nat) : Nat :=
  (x * 2 ^ k) % 2 ^ 32 ||| x / 2 ^ (32 - k)

/-- `count` big-endian bytes of `n`. -/
def bytesBE : Nat → Nat → List Nat
  | 0, _ => []
  | k + 1, n => n / 2 ^ (8 * k) % 256 :: bytesBE k n

/-- SHA-1 padding: append `0x80`, zero bytes to 56 mod 64, then the 64-bit
big-endian bit length. -/
def sha1Pad (msg : List Nat) : List Nat :=
  msg ++ 0x80 :: List.replicate ((119 - msg.length % 64) % 64) 0
    ++ bytesBE 8 (8 * msg.length)

/-- Split into 64-byte blocks. -/
def chunks64 : List Nat → List (List Nat)
  | [] => []
  | x :: rest => ((x :: rest).take 64) :: chunks64 ((x :: rest).drop 64)
termination_by l => l.length
decreasing_by simp [List.length_drop]; omega

/-- Big-endian 32-bit words of a block. -/
def toWordsBE : List Nat → List Nat
  | b0 :: b1 :: b2 :: b3 :: rest =>
      (b0 * 2 ^ 24 + b1 * 2 ^ 16 + b2 * 2 ^ 8 + b3) :: toWordsBE rest
  | _ => []

/-- Message-schedule extension: prepends the next word (most recent first)
`count` times.  `w[i] = rotl1 (w[i-3] xor w[i-8] xor w[i-14] xor w[i-16])`. -/
def sha1Extend : Nat → List Nat → List Nat
  | 0, acc => acc.reverse
  | k + 1, acc =>
      sha1Extend k
        (rotl32 1 ((acc.getD 2 0) ^^^ (acc.getD 7 0) ^^^ (acc.getD 13 0) ^^^ (acc.getD 15 0))
          :: acc)

def sha1F (i b c d : Nat) : Nat :=
  if i < 20 then b &&& c ||| (b ^^^ 0xFFFFFFFF) &&& d
  else if i < 40 then b ^^^ c ^^^ d
  else if i < 60 then b &&& c ||| b &&& d ||| c &&& d
  else b ^^^ c ^^^ d

def sha1K (i : Nat) : Nat :=
  if i < 20 then 0x5A827999
  else if i < 40 then 0x6ED9EBA1
  else if i < 60 then 0x8F1BBCDC
  else 0xCA62C1D6

/-- The 80 compression rounds over the extended schedule. -/
def sha1Rounds : Nat → List Nat → Nat × Nat × Nat × Nat × Nat → Nat × Nat × Nat × Nat × Nat
  | _, [], st => st
  | i, w :: ws, (a, b, c, d, e) =>
      sha1Rounds (i + 1) ws
        ((rotl32 5 a + sha1F i b c d + e + sha1K i + w) % 2 ^ 32, a, rotl32 30 b, c, d)

/-- One 512-bit block step. -/
def sha1Block (st : Nat × Nat × Nat × Nat × Nat) (block : List Nat) :
    Nat × Nat × Nat × Nat × Nat :=
  match st with
  | (h0, h1, h2, h3, h4) =>
    match sha1Rounds 0 (sha1Extend 64 (toWordsBE block).reverse) (h0, h1, h2, h3, h4) with
    | (a, b, c, d, e) =>
        ((h0 + a) % 2 ^ 32, (h1 + b) % 2 ^ 32, (h2 + c) % 2 ^ 32,
         (h3 + d) % 2 ^ 32, (h4 + e) % 2 ^ 32)

/-- The 160-bit SHA-1 digest of a byte string, as a natural number. -/
def sha1Core (bytes : List Nat) : Nat :=
  match (chunks64 (sha1Pad bytes)).foldl sha1Block
      (0x67452301, 0xEFCDAB89, 0x98BADCFE, 0x10325476, 0xC3D2E1F0) with
  | (h0, h1, h2, h3, h4) =>
      ((((h0 * 2 ^ 32 + h1) * 2 ^ 32 + h2) * 2 ^ 32 + h3) * 2 ^ 32 + h4)

def hexDig (n : Nat) : Char :=
  if n < 10 then Char.ofNat (48 + n) else Char.ofNat (87 + n)

/-- `k` lowercase hex digits of `n`, big-endian, zero padded. -/
def toHexN : Nat → Nat → List Char
  | 0, _ => []
  | k + 1, n => toHexN k (n / 16) ++ [hexDig (n % 16)]

/-- `sha1(s)` of the source: lowercase hex digest of the UTF-8 encoding. -/
def sha1 (s : String) : String :=
  String.mk (toHexN 40 (sha1Core (utf8Encode s)))

/-! ## The Document model

`Document.__init__` stores `filepath`, `dirty = False`,
`last_saved_hash = sha1(initial_text)` and `autosave_id = sha1(seed)` where
`seed` is the string `f"{time.time()}-{id(self)}"`; the text lives in the Tk
text widget and `get_text` returns it.  Here the widget content is the
`text` field. -/

structure Document where
  filepath : Option String
  text : String
  dirty : Bool
  last_saved_hash : String
  autosave_id : String
deriving DecidableEq, Repr

/-- `Document(app, filepath, initial_text)`; `seed` is the argument of the
`sha1` call producing `autosave_id`. -/
def mkDocument (filepath : Option String) (initial_text : String) (seed : String) : Document :=
  { filepath := filepath
    text := initial_text
    dirty := false
    last_saved_hash := sha1 initial_text
    autosave_id := sha1 seed }

/-- `Document.get_text`. -/
def Document.get_text (d : Document) : String := d.text

/-- `Document.set_dirty` (the guard only avoids redundant UI updates; the
resulting flag value is `is_dirty` either way). -/
def Document.set_dirty (d : Document) (is_dirty : Bool) : Document :=
  { d with dirty := is_dirty }

/-- `Document.mark_saved`. -/
def Document.mark_saved (d : Document) : Document :=
  (({ d with last_saved_hash := sha1 d.get_text } : Document)).set_dirty false

/-- `Document._on_modified` in the state where the Tk modified flag is set
(which it is after every content mutation): recompute the hash and derive
the dirty flag. -/
def Document.on_modified (d : Document) : Document :=
  d.set_dirty (sha1 d.get_text != d.last_saved_hash)

/-- A content mutation: the widget text changes to `t` and the `<<Modified>>`
event fires `_on_modified`. -/
def Document.edit (d : Document) (t : String) : Document :=
  Document.on_modified { d with text := t }

/-- The spec invariant `dirty == (fingerprint(current_text) != last_saved_fingerprint)`. -/
def dirtyInvariant (d : Document) : Prop :=
  d.dirty = (sha1 d.text != d.last_saved_hash)

/-! ## JSON serialization of snapshots (`json.dumps` of the snapshot dict)

`_autosave_tick` writes `json.dumps({"time": time.time(), "filepath": ...,
"autosave_id": ..., "text": ...})` with default options: `ensure_ascii=True`
(every char outside `0x20..0x7e` is `\uXXXX`-escaped, astral chars as
surrogate pairs) and separators `", "` / `": "`.  The `time.time()` float is
modelled by its `repr` literal (a `List Char`), since `json.dumps` emits
exactly `repr(f)` and `float(repr(f)) == f`. -/

/-- One character of `json.encoder.py_encode_basestring_ascii`. -/
def escapeChar (c : Char) : List Char :=
  if c = '\\' then ['\\', '\\']
  else if c = '"' then ['\\', '"']
  else if c = Char.ofNat 8 then ['\\', 'b']
  else if c = Char.ofNat 9 then ['\\', 't']
  else if c = Char.ofNat 10 then ['\\', 'n']
  else if c = Char.ofNat 12 then ['\\', 'f']
  else if c = Char.ofNat 13 then ['\\', 'r']
  else if c.toNat < 0x20 then '\\' :: 'u' :: toHexN 4 c.toNat
  else if c.toNat ≤ 0x7E then [c]
  else if c.toNat < 0x10000 then '\\' :: 'u' :: toHexN 4 c.toNat
  else
    ('\\' :: 'u' :: toHexN 4 (0xD800 + (c.toNat - 0x10000) / 0x400))
      ++ ('\\' :: 'u' :: toHexN 4 (0xDC00 + (c.toNat - 0x10000) % 0x400))

def escStr (l : List Char) : List Char :=
  (l.map escapeChar).flatten

/-- A JSON string literal: `"` + escaped body + `"`. -/
def jstrDump (l : List Char) : List Char :=
  '"' :: escStr l ++ ['"']

def hexVal (c : Char) : Option Nat :=
  if 48 ≤ c.toNat ∧ c.toNat ≤ 57 then some (c.toNat - 48)
  else if 97 ≤ c.toNat ∧ c.toNat ≤ 102 then some (c.toNat - 87)
  else if 65 ≤ c.toNat ∧ c.toNat ≤ 70 then some (c.toNat - 55)
  else none

def hexQuad : List Char → Option (Nat × List Char)
  | a :: b :: c :: d :: rest =>
    match hexVal a, hexVal b, hexVal c, hexVal d with
    | some x, some y, some z, some w => some (4096 * x + 256 * y + 16 * z + w, rest)
    | _, _, _, _ => none
  | _ => none

def isJsonWs (c : Char) : Bool :=
  c == ' ' || c == '\t' || c == '\n' || c == '\r'

def skipWs (l : List Char) : List Char :=
  l.dropWhile isJsonWs

/-- The single-character string escapes of the JSON grammar. -/
def escDecode (e : Char) : Option Char :=
  if e = '"' then some '"'
  else if e = '\\' then some '\\'
  else if e = '/' then some '/'
  else if e = 'b' then some (Char.ofNat 8)
  else if e = 'f' then some (Char.ofNat 12)
  else if e = 'n' then some '\n'
  else if e = 'r' then some '\r'
  else if e = 't' then some '\t'
  else none

/-- JSON string body scanner (after the opening quote), as in `json.loads`
strict mode: raw control characters are rejected, `\uXXXX` escapes are
decoded with surrogate-pair combination.  A `\uXXXX` pair that would decode
to a lone surrogate is rejected (such a value is not a Unicode scalar value
and cannot occur in a Lean `String`; the snapshots under study never
contain one).  The fuel argument only serves termination; one unit is spent
per decoded character, so `length + 1` always suffices. -/
def parseJStrAux : Nat → List Char → Option (List Char × List Char)
  | 0, _ => none
  | fuel + 1, l =>
    match l with
    | [] => none
    | c :: rest =>
      if c = '"' then some ([], rest)
      else if c = '\\' then
        match rest with
        | [] => none
        | e :: r2 =>
          if e = 'u' then
            match hexQuad r2 with
            | none => none
            | some (n, r3) =>
              if n < 0xD800 ∨ 0xE000 ≤ n then
                (parseJStrAux fuel r3).map (fun p => (Char.ofNat n :: p.1, p.2))
              else if n < 0xDC00 then
                if r3.take 2 = ['\\', 'u'] then
                  match hexQuad (r3.drop 2) with
                  | none => none
                  | some (m, r4) =>
                    if 0xDC00 ≤ m ∧ m < 0xE000 then
                      (parseJStrAux fuel r4).map (fun p =>
                        (Char.ofNat (0x10000 + (n - 0xD800) * 0x400 + (m - 0xDC00)) :: p.1, p.2))
                    else none
                else none
              else none
          else
            match escDecode e with
            | none => none
            | some d => (parseJStrAux fuel r2).map (fun p => (d :: p.1, p.2))
      else if c.toNat < 0x20 then none
      else (parseJStrAux fuel rest).map (fun p => (c :: p.1, p.2))

def parseJString (l : List Char) : Option (List Char × List Char) :=
  parseJStrAux (l.length + 1) l

/-- Optional fraction part `(\.\d+)?` of the JSON number regex
(maximal munch with backtracking to the empty match, like `re`). -/
def parseFrac (l : List Char) : List Char × List Char :=
  match l with
  | '.' :: t =>
    if t.takeWhile Char.isDigit = [] then ([], l)
    else ('.' :: t.takeWhile Char.isDigit, t.dropWhile Char.isDigit)
  | _ => ([], l)

/-- Optional exponent part `([eE][-+]?\d+)?`. -/
def parseExp (l : List Char) : List Char × List Char :=
  match l with
  | c :: t =>
    if c = 'e' ∨ c = 'E' then
      match t with
      | s :: t2 =>
        if s = '+' ∨ s = '-' then
          if t2.takeWhile Char.isDigit = [] then ([], l)
          else (c :: s :: t2.takeWhile Char.isDigit, t2.dropWhile Char.isDigit)
        else
          if t.takeWhile Char.isDigit = [] then ([], l)
          else (c :: t.takeWhile Char.isDigit, t.dropWhile Char.isDigit)
      | [] => ([], l)
    else ([], l)
  | [] => ([], l)

/-- The unsigned part `(0|[1-9]\d*)(\.\d+)?([eE][-+]?\d+)?` of the JSON
number token: returns the matched literal and the rest. -/
def parseNumBody : List Char → Option (List Char × List Char)
  | [] => none
  | c :: t =>
    if c = '0' then
      match parseFrac t with
      | (f, r1) =>
        match parseExp r1 with
        | (e, r2) => some ('0' :: (f ++ e), r2)
    else if c.isDigit then
      match parseFrac (t.dropWhile Char.isDigit) with
      | (f, r1) =>
        match parseExp r1 with
        | (e, r2) => some (c :: (t.takeWhile Char.isDigit ++ f ++ e), r2)
    else none

/-- The JSON number token `-?(0|[1-9]\d*)(\.\d+)?([eE][-+]?\d+)?`
(`json.scanner.NUMBER_RE`). -/
def parseNumLit : List Char → Option (List Char × List Char)
  | '-' :: l1 => (parseNumBody l1).map (fun p => ('-' :: p.1, p.2))
  | l => parseNumBody l

/-- JSON values, restricted to the shapes the snapshot format exercises:
flat objects whose values are strings, numbers, booleans or null.  Numbers
are carried as their literal (see the note on `time.time()` above). -/
inductive JVal where
  | null : JVal
  | bool (b : Bool) : JVal
  | str (s : List Char) : JVal
  | num (lit : List Char) : JVal
  | nonfinite (lit : List Char) : JVal
  | obj (members : List (List Char × JVal)) : JVal
  | arr (elems : List JVal) : JVal

/-- The scalar alternatives of the `json.loads` scanner in its order:
`null`, `true`, `false`, a string, a number, and (after the number regex
fails) the non-finite constants `NaN`, `Infinity`, `-Infinity` that the
default `parse_constant` turns into `float` nan and infinities. -/
def parseScalar (l : List Char) : Option (JVal × List Char) :=
  if l.take 4 = ['n', 'u', 'l', 'l'] then some (.null, l.drop 4)
  else if l.take 4 = ['t', 'r', 'u', 'e'] then some (.bool true, l.drop 4)
  else if l.take 5 = ['f', 'a', 'l', 's', 'e'] then some (.bool false, l.drop 5)
  else if l.head? = some '"' then (parseJString l.tail).map (fun p => (.str p.1, p.2))
  else
    match parseNumLit l with
    | some p => some (.num p.1, p.2)
    | none =>
      if l.take 3 = ['N', 'a', 'N'] then some (.nonfinite ['N', 'a', 'N'], l.drop 3)
      else if l.take 8 = ['I', 'n', 'f', 'i', 'n', 'i', 't', 'y'] then
        some (.nonfinite ['I', 'n', 'f', 'i', 'n', 'i', 't', 'y'], l.drop 8)
      else if l.take 9 = ['-', 'I', 'n', 'f', 'i', 'n', 'i', 't', 'y'] then
        some (.nonfinite ['-', 'I', 'n', 'f', 'i', 'n', 'i', 't', 'y'], l.drop 9)
      else none

/-- Object members after the opening `{` of a non-empty object: a string
key, `:`, a value parsed by `vp`, then `,` and more members or the closing
`}`.  Whitespace is skipped where `json.loads` skips it; a trailing comma
is rejected.  Fuel: one unit per member, `length + 1` always suffices. -/
def parseMembersAux (vp : List Char → Option (JVal × List Char)) :
    Nat → List Char → Option (List (List Char × JVal) × List Char)
  | 0, _ => none
  | fuel + 1, l0 =>
    let l := skipWs l0
    if l.head? = some '"' then
      match parseJString l.tail with
      | none => none
      | some (key, r1) =>
        let r2 := skipWs r1
        if r2.head? = some ':' then
          match vp (skipWs r2.tail) with
          | none => none
          | some (v, r4) =>
            let r5 := skipWs r4
            if r5.head? = some ',' then
              (parseMembersAux vp fuel r5.tail).map (fun p => ((key, v) :: p.1, p.2))
            else if r5.head? = some '}' then some ([(key, v)], r5.tail)
            else none
        else none
    else none

/-- Array elements after the opening `[` of a non-empty array: a value
parsed by `vp`, then `,` and more elements or the closing `]`. -/
def parseElemsAux (vp : List Char → Option (JVal × List Char)) :
    Nat → List Char → Option (List JVal × List Char)
  | 0, _ => none
  | fuel + 1, l0 =>
    match vp (skipWs l0) with
    | none => none
    | some (v, r1) =>
      let r2 := skipWs r1
      if r2.head? = some ',' then
        (parseElemsAux vp fuel r2.tail).map (fun p => (v :: p.1, p.2))
      else if r2.head? = some ']' then some ([v], r2.tail)
      else none

def parseObjBody (vp : List Char → Option (JVal × List Char)) (l : List Char) :
    Option (List (List Char × JVal) × List Char) :=
  if (skipWs l).head? = some '}' then some ([], (skipWs l).tail)
  else parseMembersAux vp ((skipWs l).length + 1) (skipWs l)

def parseArrBody (vp : List Char → Option (JVal × List Char)) (l : List Char) :
    Option (List JVal × List Char) :=
  if (skipWs l).head? = some ']' then some ([], (skipWs l).tail)
  else parseElemsAux vp ((skipWs l).length + 1) (skipWs l)

/-- One `scan_once` of the `json.loads` scanner: an object, an array, or a
scalar, with surrounding whitespace skipped.  The fuel bounds the nesting
depth of objects and arrays; each descent first consumes the opening
bracket, so `length + 1` units always suffice and the inner fuels are
self-calibrated from the remaining input.  (CPython additionally aborts on
nesting around the interpreter recursion limit, roughly a thousand levels,
which this model does not reproduce.) -/
def parseValueAux : Nat → List Char → Option (JVal × List Char)
  | 0, _ => none
  | fuel + 1, l0 =>
    if (skipWs l0).head? = some '{' then
      (parseObjBody (parseValueAux fuel) (skipWs l0).tail).map (fun p => (JVal.obj p.1, p.2))
    else if (skipWs l0).head? = some '[' then
      (parseArrBody (parseValueAux fuel) (skipWs l0).tail).map (fun p => (JVal.arr p.1, p.2))
    else parseScalar (skipWs l0)

def parseValue (l : List Char) : Option (JVal × List Char) :=
  parseValueAux (l.length + 1) l

/-- `json.loads`: one value, optionally surrounded by whitespace, consuming
the whole input. -/
def parseJson (l : List Char) : Option JVal :=
  match parseValue l with
  | some (v, rest) => if skipWs rest = [] then some v else none
  | none => none

def dumpFp : Option String → List Char
  | none => ['n', 'u', 'l', 'l']
  | some p => jstrDump p.data

/-- The JSON value the `filepath` field decodes to. -/
def jvalOfFp : Option String → JVal
  | none => JVal.null
  | some p => JVal.str p.data

/-- `json.dumps(snapshot)` for the snapshot dict of `_autosave_tick`, in its
insertion order `time, filepath, autosave_id, text`. -/
def dumpsSnapshotL (now : List Char) (fp : Option String) (id text : List Char) : List Char :=
  ['{', '"', 't', 'i', 'm', 'e', '"', ':', ' '] ++ now
    ++ [',', ' ', '"', 'f', 'i', 'l', 'e', 'p', 'a', 't', 'h', '"', ':', ' '] ++ dumpFp fp
    ++ [',', ' ', '"', 'a', 'u', 't', 'o', 's', 'a', 'v', 'e', '_', 'i', 'd', '"', ':', ' ']
    ++ jstrDump id
    ++ [',', ' ', '"', 't', 'e', 'x', 't', '"', ':', ' '] ++ jstrDump text
    ++ ['}']

/-- The four members of the parsed snapshot object, in dump order. -/
def snapMembers (now : List Char) (fp : Option String) (id text : List Char) :
    List (List Char × JVal) :=
  [(['t', 'i', 'm', 'e'], JVal.num now),
   (['f', 'i', 'l', 'e', 'p', 'a', 't', 'h'], jvalOfFp fp),
   (['a', 'u', 't', 'o', 's', 'a', 'v', 'e', '_', 'i', 'd'], JVal.str id),
   (['t', 'e', 'x', 't'], JVal.str text)]

/-- The serialized snapshot written for document `d` at time literal `now`. -/
def snapshotJson (now : List Char) (d : Document) : String :=
  String.mk (dumpsSnapshotL now d.filepath d.autosave_id.data d.text.data)

/-- Validity of a number literal (full match of `NUMBER_RE`); every
`repr(time.time())` satisfies this. -/
def NumLitOk (l : List Char) : Prop :=
  ∃ neg ip fr ex,
    l = neg ++ ip ++ fr ++ ex ∧
    (neg = [] ∨ neg = ['-']) ∧
    (ip = ['0'] ∨ ip ≠ [] ∧ ip.all Char.isDigit = true ∧ ip.head? ≠ some '0') ∧
    (fr = [] ∨ ∃ ds, fr = '.' :: ds ∧ ds ≠ [] ∧ ds.all Char.isDigit = true) ∧
    (ex = [] ∨ ∃ e sgn ds, ex = e :: sgn ++ ds ∧ (e = 'e' ∨ e = 'E') ∧
      (sgn = [] ∨ sgn = ['+'] ∨ sgn = ['-']) ∧ ds ≠ [] ∧ ds.all Char.isDigit = true)

/-- The character after a number literal must not extend the match. -/
def NumBoundary (r : List Char) : Prop :=
  ∀ c, r.head? = some c → c.isDigit = false ∧ c ≠ '.' ∧ c ≠ 'e' ∧ c ≠ 'E'

/-! ## Snapshot reading during recovery (`recover_autosave`) -/

/-- `dict` member access (last duplicate wins, like a Python dict literal). -/
def lookupMember (ms : List (List Char × JVal)) (k : List Char) : Option JVal :=
  ms.foldl (fun acc m => if m.1 = k then some m.2 else acc) none

/-- Decimal digits folded into a `Nat` left to right. -/
def digitsToNat (acc : Nat) : List Char → Nat
  | [] => acc
  | c :: r => digitsToNat (acc * 10 + (c.toNat - 48)) r

/-- Mantissa (the integer formed by the integer- and fraction-part digits)
and decimal exponent of a JSON number literal, so that the literal's value
is `± m * 10 ^ e`. -/
def numMantissaExp (l : List Char) : Nat × Int :=
  let l1 := if l.head? = some '-' then l.tail else l
  let ip := l1.takeWhile Char.isDigit
  let r1 := l1.dropWhile Char.isDigit
  let fr := if r1.head? = some '.' then r1.tail.takeWhile Char.isDigit else []
  let r2 := if r1.head? = some '.' then r1.tail.dropWhile Char.isDigit else r1
  let ev : Int :=
    match r2 with
    | 'e' :: rest | 'E' :: rest =>
      if rest.head? = some '-' then -(digitsToNat 0 (rest.tail.takeWhile Char.isDigit) : Int)
      else if rest.head? = some '+' then (digitsToNat 0 (rest.tail.takeWhile Char.isDigit) : Int)
      else (digitsToNat 0 (rest.takeWhile Char.isDigit) : Int)
    | _ => 0
  (digitsToNat 0 (ip ++ fr), ev - fr.length)

/-- Whether the Python value of a JSON number literal is falsy (equals
zero).  An integer literal decodes to `int` and is zero iff its digits are
all zero.  A float literal decodes through correctly-rounded `float`;
with value `m * 10 ^ e` (sign is irrelevant) it rounds to `±0.0` iff it is
at most `2 ^ (-1075)`, half the smallest subnormal, the tie itself rounding
to the even `0.0`.  Over the integers that bound is `m * 2 ^ 1075 ≤
10 ^ (-e)`, which also covers the integer case since a nonzero integer
(`e ≥ 0`) can never satisfy it. -/
def numIsZero (lit : List Char) : Bool :=
  let me := numMantissaExp lit
  me.1 = 0 || (me.2 < 0 && me.1 * 2 ^ 1075 ≤ 10 ^ (-me.2).toNat)

/-- Python truthiness of a decoded JSON value (`bool(x)`). -/
def jvalFalsy : JVal → Bool
  | .null => true
  | .bool b => !b
  | .str s => s.isEmpty
  | .num lit => numIsZero lit
  | .nonfinite _ => false
  | .obj ms => ms.isEmpty
  | .arr es => es.isEmpty

/-- Outcome of `json.loads` + `data.get("text", "")` + `data.get("filepath",
None)` + `Document(...)` on the bytes of a snapshot file:
  * `unreadable`: `json.loads` raises, or `data.get` on a non-dict raises
    `AttributeError`; both are inside the `try`, so the "Autosave snapshot
    unreadable." messagebox is shown and recovery stops cleanly;
  * `crashNoDoc`: the decoded `"text"` value is not a string, so
    `sha1(initial_text)` in `Document.__init__` raises outside the `try`:
    no dialog, no document;
  * `crashAfterAppend`: `"text"` is a string but `"filepath"` is a truthy
    value that is neither a string nor null: the document is built and
    appended, then `os.path.basename(filepath)` in `_tab_title` raises
    outside the `try` before the tab or the dirty flag is set;
  * `okJunkFp`: `"filepath"` is a falsy non-string non-null value (`0`,
    `0.0`, `false`, `[]`, an empty object): it never reaches
    `os.path.basename` — `_tab_title` renders "Untitled" — and recovery
    completes; the junk value stays in the document's `filepath`
    attribute, where every later access is a truthiness test. -/
inductive RecoverParse where
  | ok (text : String) (fp : Option String) : RecoverParse
  | okJunkFp (text : String) : RecoverParse
  | unreadable : RecoverParse
  | crashNoDoc : RecoverParse
  | crashAfterAppend (text : String) : RecoverParse
deriving DecidableEq, Repr

def readFilepath (ms : List (List Char × JVal)) (t : String) : RecoverParse :=
  match lookupMember ms ['f', 'i', 'l', 'e', 'p', 'a', 't', 'h'] with
  | none => .ok t none
  | some JVal.null => .ok t none
  | some (JVal.str p) => .ok t (some (String.mk p))
  | some v => if jvalFalsy v then .okJunkFp t else .crashAfterAppend t

def readSnapshot (content : List Char) : RecoverParse :=
  match parseJson content with
  | none => .unreadable
  | some (JVal.obj ms) =>
    match lookupMember ms ['t', 'e', 'x', 't'] with
    | none => readFilepath ms ""
    | some (JVal.str t) => readFilepath ms (String.mk t)
    | some _ => .crashNoDoc
  | some _ => .unreadable

/-! ## Filesystem model

An association list from path to content, plus the set of paths whose
writes currently fail (disk full, permission denied).  Operations also
return an explicit `FsOp` trace recording every attempted filesystem
action, so frame claims ("this never wrote/deleted X") are statements
about the trace and the resulting map. -/

inductive FsOp where
  | read (path : String) : FsOp
  | write (path : String) (content : String) : FsOp
  | delete (path : String) : FsOp
deriving DecidableEq, Repr

structure FS where
  files : List (String × String)
  failing : List String
deriving DecidableEq, Repr

def setEntry : List (String × String) → String → String → List (String × String)
  | [], p, c => [(p, c)]
  | (q, d) :: rest, p, c => if q = p then (p, c) :: rest else (q, d) :: setEntry rest p c

def lookupEntry : List (String × String) → String → Option String
  | [], _ => none
  | (q, d) :: rest, p => if q = p then some d else lookupEntry rest p

def lookupFile (fs : FS) (p : String) : Option String :=
  lookupEntry fs.files p

/-- `Path.write_text`: fails (raises) on failing paths, else overwrites. -/
def writeFile (fs : FS) (p c : String) : Except Unit FS :=
  if p ∈ fs.failing then .error () else .ok { fs with files := setEntry fs.files p c }

/-- `self.autosave_dir / f"{doc.autosave_id}.json"`. -/
def snapPath (dir : String) (d : Document) : String :=
  dir ++ "/" ++ d.autosave_id ++ ".json"

/-! ## `App._autosave_tick` and `App.save_doc` -/

/-- One loop iteration of `_autosave_tick`: clean documents are skipped;
for a dirty document the snapshot is dumped and written, a raised write
error being swallowed by `except Exception: pass`.  The trace records the
attempt whether or not the write succeeded. -/
def autosave_step (dir : String) (now : List Char) (fs : FS) (d : Document) :
    FS × List FsOp :=
  if d.dirty then
    match writeFile fs (snapPath dir d) (snapshotJson now d) with
    | .ok fs2 => (fs2, [.write (snapPath dir d) (snapshotJson now d)])
    | .error _ => (fs, [.write (snapPath dir d) (snapshotJson now d)])
  else (fs, [])

/-- `_autosave_tick`: the loop over `self.documents`.  The per-iteration
`time.time()` calls are modelled by the single tick timestamp `now`; the
claims under study do not depend on the timestamp value.  The document list
is returned as the loop leaves it (the loop body reads, never mutates, the
documents). -/
def autosave_tick (dir : String) (now : List Char) (fs : FS) :
    List Document → FS × List Document × List FsOp
  | [] => (fs, [], [])
  | d :: docs =>
    match autosave_step dir now fs d with
    | (fs1, ops1) =>
      match autosave_tick dir now fs1 docs with
      | (fs2, docs2, ops2) => (fs2, d :: docs2, ops1 ++ ops2)

/-- `self.autosave_dir = self.state_dir / "autosave"`. -/
def autosaveDir (sd : String) : String := sd ++ "/autosave"

/-- `self.state_file = self.state_dir / "state.json"`. -/
def statePath (sd : String) : String := sd ++ "/state.json"

/-- The mutable `App` state that `_save_state` serializes: `recent_files`,
`autosave_seconds` (always an `int`: it is initialized from
`DEFAULT_AUTOSAVE_SECONDS` and only ever set to `int(n)`), and
`save_on_focus_lost`. -/
structure AppState where
  recent_files : List String
  autosave_seconds : Nat
  save_on_focus_lost : Bool
deriving DecidableEq, Repr

/-- Decimal digits of `n` (`fuel`-indexed; `n + 1` units always suffice). -/
def natDigits : Nat → Nat → List Char
  | 0, _ => []
  | fuel + 1, n =>
    if n < 10 then [Char.ofNat (48 + n)]
    else natDigits fuel (n / 10) ++ [Char.ofNat (48 + n % 10)]

/-- `json.dumps` of a nonnegative `int`. -/
def intDump (n : Nat) : List Char := natDigits (n + 1) n

/-- `json.dumps` of a `bool`. -/
def boolDump : Bool → List Char
  | true => ['t', 'r', 'u', 'e']
  | false => ['f', 'a', 'l', 's', 'e']

def dumpStrListTail : List String → List Char
  | [] => []
  | s :: rest => [',', ' '] ++ jstrDump s.data ++ dumpStrListTail rest

/-- `json.dumps` of a list of strings, with the default `", "` separator. -/
def dumpStrList : List String → List Char
  | [] => ['[', ']']
  | s :: rest => ['['] ++ jstrDump s.data ++ dumpStrListTail rest ++ [']']

/-- The serialized `state.json` record of `_save_state`, in its insertion
order `recent_files, autosave_seconds, save_on_focus_lost`. -/
def stateDump (st : AppState) : List Char :=
  ['{', '"', 'r', 'e', 'c', 'e', 'n', 't', '_', 'f', 'i', 'l', 'e', 's', '"', ':', ' ']
    ++ dumpStrList st.recent_files
    ++ [',', ' ', '"', 'a', 'u', 't', 'o', 's', 'a', 'v', 'e', '_',
        's', 'e', 'c', 'o', 'n', 'd', 's', '"', ':', ' ']
    ++ intDump st.autosave_seconds
    ++ [',', ' ', '"', 's', 'a', 'v', 'e', '_', 'o', 'n', '_', 'f', 'o', 'c', 'u', 's', '_',
        'l', 'o', 's', 't', '"', ':', ' ']
    ++ boolDump st.save_on_focus_lost
    ++ ['}']

/-- `App._save_state`: writes the serialized state to `state.json`; its
`try`/`except Exception: pass` swallows a write failure, so the filesystem
is returned unchanged on error but the attempt is still in the trace. -/
def save_state (sd : String) (fs : FS) (st : AppState) : FS × List FsOp :=
  match writeFile fs (statePath sd) (String.mk (stateDump st)) with
  | .ok fs2 => (fs2, [.write (statePath sd) (String.mk (stateDump st))])
  | .error _ => (fs, [.write (statePath sd) (String.mk (stateDump st))])

/-- The pure part of `App.add_recent`: `abspath` stands for
`os.path.abspath` (environment-dependent normalization, universally
quantified in the theorems); the path is moved to the front of
`recent_files`, which is truncated to `MAX_RECENT = 10`.  The
`_save_state()` call at its end is made explicit at the call site. -/
def add_recent (abspath : String → String) (st : AppState) (path : String) : AppState :=
  { st with recent_files :=
      (abspath path :: st.recent_files.filter (fun q => q ≠ abspath path)).take 10 }

/-- `App.save_doc`: `if not doc.filepath` (no path, or the empty string)
opens the Save As dialog (`save_doc_as`), modelled as the dialog being
cancelled.  Otherwise the full text is written to the document's path;
on success the document is `mark_saved` and `state.json` is written twice
— once by the `_save_state()` inside `add_recent` and once by the explicit
`_save_state()` — while a raised write makes the error branch show a
dialog and return False.  The in-between `update_tab_title`,
`_rebuild_recent_menu` and `update_status` calls touch only widgets. -/
def save_doc (abspath : String → String) (sd : String) (fs : FS) (st : AppState)
    (d : Document) : FS × AppState × Document × Bool × List FsOp :=
  match d.filepath with
  | none => (fs, st, d, false, [])
  | some p =>
    if p = "" then (fs, st, d, false, [])
    else
      match writeFile fs p d.get_text with
      | .error _ => (fs, st, d, false, [.write p d.get_text])
      | .ok fs1 =>
        ((save_state sd (save_state sd fs1 (add_recent abspath st p)).1
            (add_recent abspath st p)).1,
         add_recent abspath st p, d.mark_saved, true,
         FsOp.write p d.get_text ::
           (save_state sd fs1 (add_recent abspath st p)).2 ++
             (save_state sd (save_state sd fs1 (add_recent abspath st p)).1
               (add_recent abspath st p)).2)

/-! ## `App.recover_autosave` on the chosen snapshot file -/

inductive RecoverOutcome where
  | recovered : RecoverOutcome
  | unreadable : RecoverOutcome
  | crash : RecoverOutcome
deriving DecidableEq, Repr

/-- Recovery from the chosen snapshot file at `path`; `content` is `none`
when `p.read_text` raises.  `seed` is the `sha1` seed of the new document's
`autosave_id`.  In the `crashAfterAppend` and `okJunkFp` cases the source
document carries the decoded non-string filepath value; the model's
`Document.filepath` is `Option String`, so `none` stands in for the junk
value, which the program only ever subjects to truthiness tests that treat
it exactly like `None`. -/
def recover_from (fs : FS) (docs : List Document) (path : String)
    (content : Option String) (seed : String) :
    FS × List Document × RecoverOutcome × List FsOp :=
  match content with
  | none => (fs, docs, .unreadable, [.read path])
  | some c =>
    match readSnapshot c.data with
    | .unreadable => (fs, docs, .unreadable, [.read path])
    | .crashNoDoc => (fs, docs, .crash, [.read path])
    | .crashAfterAppend t => (fs, docs ++ [mkDocument none t seed], .crash, [.read path])
    | .okJunkFp t =>
      (fs, docs ++ [(mkDocument none t seed).set_dirty true], .recovered, [.read path])
    | .ok t fp => (fs, docs ++ [(mkDocument fp t seed).set_dirty true], .recovered, [.read path])

/-! ## Replace All (`App.replace_dialog.replace_all`)

Case-sensitive: `content.replace(needle, repl)` — the left-to-right
non-overlapping literal scan of `str.replace`.  Case-insensitive:
`re.sub(re.escape(needle), repl, content, flags=re.IGNORECASE)` — the same
scan with case-folded comparison, except that `re.sub` first runs `repl`
through the template parser (`sre_parse.parse_template`), which interprets
backslash escapes and raises for bad ones.

`lowerL` models the case folding of `re.IGNORECASE` (`getlower` with the
Unicode flag, plus the `sre_compile` equivalence fixups) on its ASCII
fragment: on code points below 128 the two agree exactly, and no ASCII
character is case-equivalent to any non-ASCII one when both the pattern and
the subject are ASCII.  `Char.toLower` lowercases only ASCII, so the claim
about the case-insensitive mode is stated for ASCII `content` and `needle`;
beyond ASCII `re.IGNORECASE` folds more pairs (for example `'É'` with
`'é'`) than `Char.toLower` does. -/

def lowerL (l : List Char) : List Char := l.map Char.toLower

/-- `str.replace`: leftmost non-overlapping occurrences, literal `repl`. -/
def pyReplace (needle repl : List Char) : List Char → List Char
  | [] => []
  | c :: s =>
    if h : needle ≠ [] ∧ needle.isPrefixOf (c :: s) = true then
      repl ++ pyReplace needle repl ((c :: s).drop needle.length)
    else c :: pyReplace needle repl s
termination_by l => l.length
decreasing_by
  · simp only [List.length_drop, List.length_cons]
    have h1 : 0 < needle.length := List.length_pos.mpr h.1
    omega
  · simp

/-- The scan of `re.sub` with an escaped-literal pattern under
`re.IGNORECASE`, with the already-expanded template `rt`. -/
def reSubScan (needle rt : List Char) : List Char → List Char
  | [] => []
  | c :: s =>
    if h : needle ≠ [] ∧ (lowerL needle).isPrefixOf (lowerL (c :: s)) = true then
      rt ++ reSubScan needle rt ((c :: s).drop needle.length)
    else c :: reSubScan needle rt s
termination_by l => l.length
decreasing_by
  · simp only [List.length_drop, List.length_cons]
    have h1 : 0 < needle.length := List.length_pos.mpr h.1
    omega
  · simp

def isOctalDigit (c : Char) : Bool :=
  decide (48 ≤ c.toNat ∧ c.toNat ≤ 55)

def octVal (c : Char) : Nat := c.toNat - 48

def isAsciiLetter (c : Char) : Bool :=
  decide (65 ≤ c.toNat ∧ c.toNat ≤ 90 ∨ 97 ≤ c.toNat ∧ c.toNat ≤ 122)

/-- `sre_parse.ESCAPES` restricted to templates. -/
def templEsc (e : Char) : Option Char :=
  if e = '\\' then some '\\'
  else if e = 'a' then some (Char.ofNat 7)
  else if e = 'b' then some (Char.ofNat 8)
  else if e = 'f' then some (Char.ofNat 12)
  else if e = 'n' then some '\n'
  else if e = 'r' then some '\r'
  else if e = 't' then some '\t'
  else if e = 'v' then some (Char.ofNat 11)
  else none

/-- `sre_parse.parse_template` for a pattern with no groups: `\g<...>` and
`\1`..`\99` raise (no such group), `\0` with up to two octal digits is an
octal escape, the `ESCAPES` table maps to control characters, other escaped
ASCII letters raise "bad escape", any other escaped character is kept
verbatim with its backslash; a trailing backslash raises. -/
def parseTemplateAux : Nat → List Char → Option (List Char)
  | 0, _ => none
  | fuel + 1, l =>
    match l with
    | [] => some []
    | c :: rest =>
      if c = '\\' then
        match rest with
        | [] => none
        | e :: r2 =>
          if e = 'g' then none
          else if e = '0' then
            match r2 with
            | d1 :: r3 =>
              if isOctalDigit d1 then
                match r3 with
                | d2 :: r4 =>
                  if isOctalDigit d2 then
                    (parseTemplateAux fuel r4).map
                      (fun l => Char.ofNat (octVal d1 * 8 + octVal d2) :: l)
                  else (parseTemplateAux fuel r3).map (fun l => Char.ofNat (octVal d1) :: l)
                | [] => (parseTemplateAux fuel r3).map (fun l => Char.ofNat (octVal d1) :: l)
              else (parseTemplateAux fuel r2).map (fun l => Char.ofNat 0 :: l)
            | [] => (parseTemplateAux fuel r2).map (fun l => Char.ofNat 0 :: l)
          else if e.isDigit then none
          else
            match templEsc e with
            | some d => (parseTemplateAux fuel r2).map (fun l => d :: l)
            | none =>
              if isAsciiLetter e then none
              else (parseTemplateAux fuel r2).map (fun l => '\\' :: e :: l)
      else (parseTemplateAux fuel rest).map (fun l => c :: l)

def parseTemplate (l : List Char) : Option (List Char) :=
  parseTemplateAux (l.length + 1) l

/-- `replace_all` of the Replace dialog: empty needle is a no-op; the result
is the new widget content.  `none` models the case-insensitive branch
raising `re.error` out of the callback (bad template escape). -/
def replace_all (case_sensitive : Bool) (content needle repl : List Char) :
    Option (List Char) :=
  if needle = [] then some content
  else if case_sensitive then some (pyReplace needle repl content)
  else (parseTemplate repl).map (fun rt => reSubScan needle rt content)

/-- Every case-insensitive occurrence of `needle` in `content` matches its
exact case (stated over `content.tails`, the list of all suffixes, so the
predicate is decidable). -/
@[reducible]
def ExactCaseOccurrences (needle content : List Char) : Prop :=
  ∀ t ∈ content.tails, (lowerL needle).isPrefixOf (lowerL t) = true →
    needle.isPrefixOf t = true

/-- The writes `_autosave_tick` attempts: one snapshot per dirty document,
in document order. -/
def dirtySnapshotWrites (dir : String) (now : List Char) (docs : List Document) : List FsOp :=
  (docs.filter (fun d => d.dirty)).map
    (fun d => FsOp.write (snapPath dir d) (snapshotJson now d))

/-- The snapshot paths of the dirty documents. -/
def dirtySnapPaths (dir : String) (docs : List Document) : List String :=
  (docs.filter (fun d => d.dirty)).map (snapPath dir)

/-! # Theorems -/

/-! ## General helper lemmas -/

theorem char_valid_nat (c : Char) : c.toNat < 0xD800 ∨ 0xDFFF < c.toNat ∧ c.toNat < 0x110000 := by
  have h := c.valid
  unfold UInt32.isValidChar Nat.isValidChar at h
  rcases h with h | h
  · left
    exact h
  · right
    exact h

/-! ## C1 and C7: the dirty flag -/

/-- Claim C1: after every content mutation and after every `mark_saved`
call the dirty flag equals `sha1(current text) != last_saved_hash`; in
particular, after an edit it is true exactly when the new fingerprint
differs from the last saved one, and after `mark_saved` it is false. -/
theorem C1_dirty_invariant (d : Document) (t : String) :
    dirtyInvariant (d.edit t) ∧
    (d.edit t).dirty = (sha1 t != d.last_saved_hash) ∧
    dirtyInvariant d.mark_saved ∧
    d.mark_saved.dirty = false := by
  refine ⟨?_, ?_, ?_, rfl⟩ <;>
    simp [dirtyInvariant, Document.edit, Document.on_modified, Document.mark_saved,
      Document.set_dirty, Document.get_text]

/-- Claim C7: `mark_saved` is idempotent — the second call changes nothing,
and the flag is false after both calls. -/
theorem C7_mark_saved_idempotent (d : Document) :
    d.mark_saved.mark_saved = d.mark_saved ∧
    d.mark_saved.dirty = false ∧
    d.mark_saved.mark_saved.dirty = false ∧
    d.mark_saved.mark_saved.last_saved_hash = d.mark_saved.last_saved_hash := by
  refine ⟨?_, rfl, rfl, ?_⟩ <;>
    simp [Document.mark_saved, Document.set_dirty, Document.get_text]

/-! ## C8: the fingerprint function -/

theorem sha1Block_bound (st : Nat × Nat × Nat × Nat × Nat) (b : List Nat) :
    (sha1Block st b).1 < 2 ^ 32 ∧ (sha1Block st b).2.1 < 2 ^ 32 ∧
    (sha1Block st b).2.2.1 < 2 ^ 32 ∧ (sha1Block st b).2.2.2.1 < 2 ^ 32 ∧
    (sha1Block st b).2.2.2.2 < 2 ^ 32 := by
  obtain ⟨h0, h1, h2, h3, h4⟩ := st
  simp only [sha1Block]
  rcases hEq : sha1Rounds 0 (sha1Extend 64 (toWordsBE b).reverse) (h0, h1, h2, h3, h4)
    with ⟨a, b2, c, d, e⟩
  refine ⟨?_, ?_, ?_, ?_, ?_⟩ <;> exact Nat.mod_lt _ (by norm_num)

theorem foldl_sha1Block_bound (l : List (List Nat)) (init : Nat × Nat × Nat × Nat × Nat)
    (h : init.1 < 2 ^ 32 ∧ init.2.1 < 2 ^ 32 ∧ init.2.2.1 < 2 ^ 32 ∧
      init.2.2.2.1 < 2 ^ 32 ∧ init.2.2.2.2 < 2 ^ 32) :
    (l.foldl sha1Block init).1 < 2 ^ 32 ∧ (l.foldl sha1Block init).2.1 < 2 ^ 32 ∧
    (l.foldl sha1Block init).2.2.1 < 2 ^ 32 ∧ (l.foldl sha1Block init).2.2.2.1 < 2 ^ 32 ∧
    (l.foldl sha1Block init).2.2.2.2 < 2 ^ 32 := by
  induction l generalizing init with
  | nil => exact h
  | cons b l ih => exact ih (sha1Block init b) (sha1Block_bound init b)

theorem sha1Core_lt (bytes : List Nat) : sha1Core bytes < 2 ^ 160 := by
  have hb := foldl_sha1Block_bound (chunks64 (sha1Pad bytes))
    (0x67452301, 0xEFCDAB89, 0x98BADCFE, 0x10325476, 0xC3D2E1F0) (by norm_num)
  unfold sha1Core
  rcases hEq : (chunks64 (sha1Pad bytes)).foldl sha1Block
      (0x67452301, 0xEFCDAB89, 0x98BADCFE, 0x10325476, 0xC3D2E1F0) with ⟨h0, h1, h2, h3, h4⟩
  rw [hEq] at hb
  obtain ⟨b0, b1, b2, b3, b4⟩ := hb
  simp only at b0 b1 b2 b3 b4
  have e32 : (2 : Nat) ^ 32 = 4294967296 := by norm_num
  have e160 : (2 : Nat) ^ 160 = 1461501637330902918203684832716283019655932542976 := by norm_num
  rw [e32] at b0 b1 b2 b3 b4
  rw [e160]
  dsimp only
  omega

theorem utf8Encode_replicate_length (k : Nat) :
    (utf8Encode (String.mk (List.replicate k 'a'))).length = k := by
  induction k with
  | zero => rfl
  | succ n ih =>
    simp only [utf8Encode] at ih ⊢
    have ha : utf8EncodeChar 'a' = [97] := rfl
    rw [List.replicate_succ, List.map_cons, ha, List.flatten_cons, List.length_append, ih]
    simp only [List.length_cons, List.length_nil]
    omega

/-- Claim C8 counterexample: the claimed equivalence "fingerprints are equal
iff the hashed UTF-8 encodings are equal" is false: the digest has only
`2 ^ 160` possible values, so among the infinitely many texts `"a" * n` two
distinct ones (with UTF-8 encodings of different lengths) share their
fingerprint. -/
theorem C8_counterexample :
    ¬ ∀ s t : String, sha1 s = sha1 t → utf8Encode s = utf8Encode t := by
  intro H
  obtain ⟨m, n, hmn, hf⟩ :=
    Finite.exists_ne_map_eq_of_infinite
      (fun k : ℕ =>
        (⟨sha1Core (utf8Encode (String.mk (List.replicate k 'a'))), sha1Core_lt _⟩ :
          Fin (2 ^ 160)))
  have hcore : sha1Core (utf8Encode (String.mk (List.replicate m 'a'))) =
      sha1Core (utf8Encode (String.mk (List.replicate n 'a'))) := congrArg Fin.val hf
  have hsha : sha1 (String.mk (List.replicate m 'a')) = sha1 (String.mk (List.replicate n 'a')) := by
    unfold sha1
    rw [hcore]
  have henc := H _ _ hsha
  have hlen := congrArg List.length henc
  rw [utf8Encode_replicate_length, utf8Encode_replicate_length] at hlen
  exact hmn hlen

/-- Claim C8 (amended): the fingerprint is the pure total function
`SHA-1 hex digest of the UTF-8 encoding of the text`; texts with equal
UTF-8 encodings (in particular equal texts) always receive equal
fingerprints.  The converse — equal fingerprints only for equal
encodings — cannot hold for a fixed 160-bit digest and is dropped
(see the counterexample). -/
theorem C8_fingerprint (s t : String) (h : utf8Encode s = utf8Encode t) :
    sha1 s = String.mk (toHexN 40 (sha1Core (utf8Encode s))) ∧ sha1 s = sha1 t := by
  refine ⟨rfl, ?_⟩
  unfold sha1
  rw [h]

theorem C8_fingerprint_witness :
    sha1 "" = String.mk (toHexN 40 (sha1Core (utf8Encode ""))) ∧ sha1 "" = sha1 "" :=
  C8_fingerprint "" "" rfl

/-! ## C10: Replace All -/

theorem parseTemplateAux_no_backslash (repl : List Char) :
    ∀ fuel, repl.length < fuel → '\\' ∉ repl → parseTemplateAux fuel repl = some repl := by
  induction repl with
  | nil =>
    intro fuel hf _
    cases fuel with
    | zero => simp at hf
    | succ k => simp [parseTemplateAux]
  | cons c t ih =>
    intro fuel hf hb
    cases fuel with
    | zero => simp at hf
    | succ k =>
      have hc : ¬ c = '\\' := fun h => hb (h ▸ List.mem_cons_self c t)
      have ht : '\\' ∉ t := fun h => hb (List.mem_cons_of_mem c h)
      have hlt : t.length < k := by
        simp only [List.length_cons] at hf
        omega
      simp only [parseTemplateAux, if_neg hc]
      rw [ih k hlt ht]
      rfl

theorem parseTemplate_no_backslash (repl : List Char) (hb : '\\' ∉ repl) :
    parseTemplate repl = some repl :=
  parseTemplateAux_no_backslash repl (repl.length + 1) (Nat.lt_succ_self _) hb

theorem reSubScan_eq_pyReplace : ∀ (needle rt content : List Char),
    ExactCaseOccurrences needle content →
    reSubScan needle rt content = pyReplace needle rt content
  | _, _, [], _ => by simp [reSubScan, pyReplace]
  | needle, rt, c :: s, H => by
    have Htail : ExactCaseOccurrences needle s := by
      intro t ht
      refine H t ?_
      rw [List.mem_tails] at ht ⊢
      exact ht.trans (List.suffix_cons c s)
    by_cases hci : needle ≠ [] ∧ (lowerL needle).isPrefixOf (lowerL (c :: s)) = true
    · have hcs : needle.isPrefixOf (c :: s) = true :=
        H (c :: s) (by rw [List.mem_tails]) hci.2
      have Hdrop : ExactCaseOccurrences needle ((c :: s).drop needle.length) := by
        intro t ht
        refine H t ?_
        rw [List.mem_tails] at ht ⊢
        exact ht.trans (List.drop_suffix _ _)
      have h1 : 0 < needle.length := List.length_pos.mpr hci.1
      rw [reSubScan, pyReplace, dif_pos hci, dif_pos ⟨hci.1, hcs⟩]
      exact congrArg (rt ++ ·) (reSubScan_eq_pyReplace needle rt _ Hdrop)
    · have hcs : ¬ (needle ≠ [] ∧ needle.isPrefixOf (c :: s) = true) := by
        intro hp
        apply hci
        refine ⟨hp.1, ?_⟩
        have := hp.2
        rw [List.isPrefixOf_iff_prefix] at this ⊢
        exact this.map Char.toLower
      rw [reSubScan, pyReplace, dif_neg hci, dif_neg hcs]
      exact congrArg (c :: ·) (reSubScan_eq_pyReplace needle rt s Htail)
termination_by _ _ content _ => content.length
decreasing_by
  · simp only [List.length_drop, List.length_cons]
    omega
  · simp

theorem pyReplace_no_occur (needle repl : List Char) :
    ∀ content, (∀ u ∈ content.tails, needle.isPrefixOf u = false) →
      pyReplace needle repl content = content := by
  intro content
  induction content with
  | nil => intro _; simp [pyReplace]
  | cons c s ih =>
    intro h
    have h1 : needle.isPrefixOf (c :: s) = false := h (c :: s) (by rw [List.mem_tails])
    have hcond : ¬ (needle ≠ [] ∧ needle.isPrefixOf (c :: s) = true) := by
      intro hp
      rw [hp.2] at h1
      exact absurd h1 (by decide)
    rw [pyReplace, dif_neg hcond]
    have hs : ∀ u ∈ s.tails, needle.isPrefixOf u = false := by
      intro u hu
      refine h u ?_
      rw [List.mem_tails] at hu ⊢
      exact hu.trans (List.suffix_cons c s)
    rw [ih hs]

theorem pyReplace_at_match (needle repl content : List Char)
    (h1 : needle ≠ []) (h2 : needle.isPrefixOf content = true) :
    pyReplace needle repl content = repl ++ pyReplace needle repl (content.drop needle.length) := by
  cases content with
  | nil =>
    cases needle with
    | nil => exact absurd rfl h1
    | cons a b => simp [List.isPrefixOf] at h2
  | cons c s => rw [pyReplace, dif_pos ⟨h1, h2⟩]

/-- Claim C10 counterexample: on the text `"a"`, needle `"a"` (trivially
exact-case) and replacement backslash-`n`, the case-sensitive mode inserts
the two characters backslash-`n` while the case-insensitive mode inserts a
newline (`re.sub` expands template escapes), so the two modes disagree and
the replacement is not taken literally. -/
theorem C10_counterexample :
    ExactCaseOccurrences ['a'] ['a'] ∧
    replace_all true ['a'] ['a'] ['\\', 'n'] ≠ replace_all false ['a'] ['a'] ['\\', 'n'] := by
  have ha : pyReplace ['a'] ['\\', 'n'] ['a'] = ['\\', 'n'] := by
    rw [pyReplace_at_match ['a'] ['\\', 'n'] ['a'] (by decide) (by decide)]
    simp [pyReplace]
  have hrt : pyReplace ['a'] ['\n'] ['a'] = ['\n'] := by
    rw [pyReplace_at_match ['a'] ['\n'] ['a'] (by decide) (by decide)]
    simp [pyReplace]
  have e1 : replace_all true ['a'] ['a'] ['\\', 'n'] = some ['\\', 'n'] := by
    unfold replace_all
    rw [if_neg (by decide), if_pos rfl, ha]
  have e2 : replace_all false ['a'] ['a'] ['\\', 'n'] = some ['\n'] := by
    unfold replace_all
    rw [if_neg (by decide), if_neg (by decide)]
    have hp : parseTemplate ['\\', 'n'] = some ['\n'] := rfl
    rw [hp]
    show some (reSubScan ['a'] ['\n'] ['a']) = some ['\n']
    rw [reSubScan_eq_pyReplace ['a'] ['\n'] ['a'] (by decide), hrt]
  refine ⟨by decide, ?_⟩
  rw [e1, e2]
  decide

/-- Claim C10 (amended): for ASCII text and non-empty ASCII needle and a
replacement containing no backslash, Replace All replaces every occurrence
(in the chosen case-sensitivity mode) with the replacement taken literally
and leaves non-matching text unchanged, and the case-sensitive and
case-insensitive modes agree on text where every case-insensitive
occurrence of the needle matches its exact case.  (With a backslash in the
replacement the case-insensitive mode interprets it as a template escape —
see the counterexample; the ASCII restriction scopes the claim to where
`Char.toLower` coincides with `re.IGNORECASE` case folding.) -/
theorem C10_replace_all (content needle repl : List Char)
    (h1 : needle ≠ []) (h2 : '\\' ∉ repl) (h3 : ExactCaseOccurrences needle content)
    (h4 : ∀ c ∈ content, c.toNat < 128) (h5 : ∀ c ∈ needle, c.toNat < 128) :
    replace_all true content needle repl = some (pyReplace needle repl content) ∧
    replace_all false content needle repl = some (pyReplace needle repl content) ∧
    (∀ u, (∀ v ∈ u.tails, needle.isPrefixOf v = false) → pyReplace needle repl u = u) ∧
    (∀ u, needle.isPrefixOf u = true →
      pyReplace needle repl u = repl ++ pyReplace needle repl (u.drop needle.length)) := by
  refine ⟨?_, ?_, ?_, ?_⟩
  · unfold replace_all
    rw [if_neg h1, if_pos rfl]
  · unfold replace_all
    rw [if_neg h1, if_neg (by decide : ¬ (false = true))]
    rw [parseTemplate_no_backslash repl h2]
    show some (reSubScan needle repl content) = some (pyReplace needle repl content)
    rw [reSubScan_eq_pyReplace needle repl content h3]
  · exact fun u hu => pyReplace_no_occur needle repl u hu
  · exact fun u hu => pyReplace_at_match needle repl u h1 hu

theorem C10_replace_all_witness :
    replace_all true ['a', 'b'] ['b'] ['z'] = some (pyReplace ['b'] ['z'] ['a', 'b']) ∧
    replace_all false ['a', 'b'] ['b'] ['z'] = some (pyReplace ['b'] ['z'] ['a', 'b']) ∧
    (∀ u, (∀ v ∈ u.tails, ['b'].isPrefixOf v = false) → pyReplace ['b'] ['z'] u = u) ∧
    (∀ u, ['b'].isPrefixOf u = true →
      pyReplace ['b'] ['z'] u = ['z'] ++ pyReplace ['b'] ['z'] (u.drop ['b'].length)) :=
  C10_replace_all ['a', 'b'] ['b'] ['z'] (by decide) (by decide) (by decide) (by decide)
    (by decide)

/-! ## C4, C5, C9: autosave tick and manual save -/

theorem lookupEntry_setEntry_self (files : List (String × String)) (p c : String) :
    lookupEntry (setEntry files p c) p = some c := by
  induction files with
  | nil => simp [setEntry, lookupEntry]
  | cons e rest ih =>
    obtain ⟨q, v⟩ := e
    by_cases h : q = p
    · subst h
      simp [setEntry, lookupEntry]
    · simp only [setEntry, if_neg h, lookupEntry]
      exact ih

theorem lookupEntry_setEntry_ne (files : List (String × String)) (p c q : String)
    (h : q ≠ p) : lookupEntry (setEntry files p c) q = lookupEntry files q := by
  induction files with
  | nil =>
    simp only [setEntry, lookupEntry]
    rw [if_neg (fun hh => h hh.symm)]
  | cons e rest ih =>
    obtain ⟨r, v⟩ := e
    by_cases hr : r = p
    · subst hr
      simp only [setEntry, if_pos rfl, lookupEntry]
      rw [if_neg (fun hh => h hh.symm), if_neg (fun hh => h hh.symm)]
    · simp only [setEntry, if_neg hr, lookupEntry]
      by_cases hq : r = q
      · rw [if_pos hq, if_pos hq]
      · rw [if_neg hq, if_neg hq, ih]

theorem autosave_step_clean (dir : String) (now : List Char) (fs : FS) (d : Document)
    (hd : ¬ d.dirty = true) : autosave_step dir now fs d = (fs, []) := by
  simp [autosave_step, hd]

theorem autosave_step_dirty_ok (dir : String) (now : List Char) (fs : FS) (d : Document)
    (hd : d.dirty = true) (hf : snapPath dir d ∉ fs.failing) :
    autosave_step dir now fs d =
      ({ files := setEntry fs.files (snapPath dir d) (snapshotJson now d),
         failing := fs.failing },
       [FsOp.write (snapPath dir d) (snapshotJson now d)]) := by
  simp [autosave_step, writeFile, hd, hf]

theorem autosave_step_dirty_fail (dir : String) (now : List Char) (fs : FS) (d : Document)
    (hd : d.dirty = true) (hf : snapPath dir d ∈ fs.failing) :
    autosave_step dir now fs d =
      (fs, [FsOp.write (snapPath dir d) (snapshotJson now d)]) := by
  simp [autosave_step, writeFile, hd, hf]

theorem autosave_step_failing (dir : String) (now : List Char) (fs : FS) (d : Document) :
    (autosave_step dir now fs d).1.failing = fs.failing := by
  by_cases hd : d.dirty = true
  · by_cases hf : snapPath dir d ∈ fs.failing
    · rw [autosave_step_dirty_fail dir now fs d hd hf]
    · rw [autosave_step_dirty_ok dir now fs d hd hf]
  · rw [autosave_step_clean dir now fs d hd]

theorem autosave_step_lookup_ne (dir : String) (now : List Char) (fs : FS) (d : Document)
    (p : String) (hp : p ≠ snapPath dir d) :
    lookupFile (autosave_step dir now fs d).1 p = lookupFile fs p := by
  by_cases hd : d.dirty = true
  · by_cases hf : snapPath dir d ∈ fs.failing
    · rw [autosave_step_dirty_fail dir now fs d hd hf]
    · rw [autosave_step_dirty_ok dir now fs d hd hf]
      exact lookupEntry_setEntry_ne fs.files _ _ p hp
  · rw [autosave_step_clean dir now fs d hd]

theorem autosave_step_ops (dir : String) (now : List Char) (fs : FS) (d : Document) :
    (autosave_step dir now fs d).2 =
      if d.dirty then [FsOp.write (snapPath dir d) (snapshotJson now d)] else [] := by
  by_cases hd : d.dirty = true
  · rw [if_pos hd]
    by_cases hf : snapPath dir d ∈ fs.failing
    · rw [autosave_step_dirty_fail dir now fs d hd hf]
    · rw [autosave_step_dirty_ok dir now fs d hd hf]
  · rw [if_neg hd, autosave_step_clean dir now fs d hd]

theorem dirtySnapPaths_cons (dir : String) (d : Document) (docs : List Document) :
    dirtySnapPaths dir (d :: docs) =
      if d.dirty then snapPath dir d :: dirtySnapPaths dir docs
      else dirtySnapPaths dir docs := by
  by_cases hd : d.dirty = true
  · simp [dirtySnapPaths, List.filter_cons, hd]
  · simp [dirtySnapPaths, List.filter_cons, hd]

theorem dirtySnapshotWrites_cons (dir : String) (now : List Char) (d : Document)
    (docs : List Document) :
    dirtySnapshotWrites dir now (d :: docs) =
      if d.dirty then
        FsOp.write (snapPath dir d) (snapshotJson now d) :: dirtySnapshotWrites dir now docs
      else dirtySnapshotWrites dir now docs := by
  by_cases hd : d.dirty = true
  · simp [dirtySnapshotWrites, List.filter_cons, hd]
  · simp [dirtySnapshotWrites, List.filter_cons, hd]

theorem autosave_tick_docs (dir : String) (now : List Char) :
    ∀ (docs : List Document) (fs : FS), (autosave_tick dir now fs docs).2.1 = docs := by
  intro docs
  induction docs with
  | nil => intro fs; rfl
  | cons d docs ih =>
    intro fs
    simp only [autosave_tick]
    rcases hstep : autosave_step dir now fs d with ⟨fs1, ops1⟩
    rcases htick : autosave_tick dir now fs1 docs with ⟨fs2, docs2, ops2⟩
    have := ih fs1
    rw [htick] at this
    simp only at this ⊢
    rw [this]

theorem autosave_tick_ops (dir : String) (now : List Char) :
    ∀ (docs : List Document) (fs : FS),
      (autosave_tick dir now fs docs).2.2 = dirtySnapshotWrites dir now docs := by
  intro docs
  induction docs with
  | nil => intro fs; rfl
  | cons d docs ih =>
    intro fs
    simp only [autosave_tick]
    rcases hstep : autosave_step dir now fs d with ⟨fs1, ops1⟩
    rcases htick : autosave_tick dir now fs1 docs with ⟨fs2, docs2, ops2⟩
    simp only
    have hops1 : ops1 = if d.dirty then
        [FsOp.write (snapPath dir d) (snapshotJson now d)] else [] := by
      have := autosave_step_ops dir now fs d
      rw [hstep] at this
      exact this
    have hops2 : ops2 = dirtySnapshotWrites dir now docs := by
      have := ih fs1
      rw [htick] at this
      exact this
    rw [hops1, hops2, dirtySnapshotWrites_cons]
    by_cases hd : d.dirty = true
    · rw [if_pos hd, if_pos hd]
      rfl
    · rw [if_neg hd, if_neg hd]
      rfl

theorem autosave_tick_failing (dir : String) (now : List Char) :
    ∀ (docs : List Document) (fs : FS), (autosave_tick dir now fs docs).1.failing = fs.failing := by
  intro docs
  induction docs with
  | nil => intro fs; rfl
  | cons d docs ih =>
    intro fs
    simp only [autosave_tick]
    rcases hstep : autosave_step dir now fs d with ⟨fs1, ops1⟩
    rcases htick : autosave_tick dir now fs1 docs with ⟨fs2, docs2, ops2⟩
    simp only
    have h1 : fs1.failing = fs.failing := by
      have := autosave_step_failing dir now fs d
      rw [hstep] at this
      exact this
    have h2 : fs2.failing = fs1.failing := by
      have := ih fs1
      rw [htick] at this
      exact this
    rw [h2, h1]

theorem autosave_tick_frame (dir : String) (now : List Char) :
    ∀ (docs : List Document) (fs : FS) (p : String), p ∉ dirtySnapPaths dir docs →
      lookupFile (autosave_tick dir now fs docs).1 p = lookupFile fs p := by
  intro docs
  induction docs with
  | nil => intro fs p _; rfl
  | cons d docs ih =>
    intro fs p hp
    rw [dirtySnapPaths_cons] at hp
    simp only [autosave_tick]
    rcases hstep : autosave_step dir now fs d with ⟨fs1, ops1⟩
    rcases htick : autosave_tick dir now fs1 docs with ⟨fs2, docs2, ops2⟩
    simp only
    have hptail : p ∉ dirtySnapPaths dir docs := by
      intro hmem
      apply hp
      by_cases hd : d.dirty = true
      · rw [if_pos hd]
        exact List.mem_cons_of_mem _ hmem
      · rw [if_neg hd]
        exact hmem
    have h2 : lookupFile fs2 p = lookupFile fs1 p := by
      have := ih fs1 p hptail
      rw [htick] at this
      exact this
    have h1 : lookupFile fs1 p = lookupFile fs p := by
      by_cases hd : d.dirty = true
      · have hne : p ≠ snapPath dir d := by
          intro he
          apply hp
          rw [if_pos hd, he]
          exact List.mem_cons_self _ _
        have := autosave_step_lookup_ne dir now fs d p hne
        rw [hstep] at this
        exact this
      · have := autosave_step_clean dir now fs d hd
        rw [hstep] at this
        rw [(Prod.mk.injEq _ _ _ _).mp this |>.1]
    rw [h2, h1]

theorem autosave_tick_lookup_dirty (dir : String) (now : List Char) :
    ∀ (docs : List Document) (fs : FS) (d : Document), d ∈ docs → d.dirty = true →
      snapPath dir d ∉ fs.failing → (dirtySnapPaths dir docs).Nodup →
      lookupFile (autosave_tick dir now fs docs).1 (snapPath dir d) =
        some (snapshotJson now d) := by
  intro docs
  induction docs with
  | nil => intro fs d h; cases h
  | cons d0 docs ih =>
    intro fs d hmem hd hfail hnodup
    simp only [autosave_tick]
    rcases hstep : autosave_step dir now fs d0 with ⟨fs1, ops1⟩
    rcases htick : autosave_tick dir now fs1 docs with ⟨fs2, docs2, ops2⟩
    simp only
    rcases List.mem_cons.mp hmem with heq | hmem2
    · subst heq
      have hsd := autosave_step_dirty_ok dir now fs d hd hfail
      rw [hstep] at hsd
      have h1 : lookupFile fs1 (snapPath dir d) = some (snapshotJson now d) := by
        rw [(Prod.mk.injEq _ _ _ _).mp hsd |>.1]
        exact lookupEntry_setEntry_self fs.files _ _
      have hnot : snapPath dir d ∉ dirtySnapPaths dir docs := by
        rw [dirtySnapPaths_cons, if_pos hd] at hnodup
        exact (List.nodup_cons.mp hnodup).1
      have h2 := autosave_tick_frame dir now docs fs1 _ hnot
      rw [htick] at h2
      rw [h2, h1]
    · have hfail1 : snapPath dir d ∉ fs1.failing := by
        have hf := autosave_step_failing dir now fs d0
        rw [hstep] at hf
        simp only at hf
        rw [hf]
        exact hfail
      have hnodup2 : (dirtySnapPaths dir docs).Nodup := by
        rw [dirtySnapPaths_cons] at hnodup
        by_cases hd0 : d0.dirty = true
        · rw [if_pos hd0] at hnodup
          exact (List.nodup_cons.mp hnodup).2
        · rw [if_neg hd0] at hnodup
          exact hnodup
      have := ih fs1 d hmem2 hd hfail1 hnodup2
      rw [htick] at this
      exact this

theorem autosave_tick_allfail (dir : String) (now : List Char) :
    ∀ (docs : List Document) (fs : FS),
      (∀ d ∈ docs, d.dirty = true → snapPath dir d ∈ fs.failing) →
      (autosave_tick dir now fs docs).1 = fs := by
  intro docs
  induction docs with
  | nil => intro fs _; rfl
  | cons d docs ih =>
    intro fs hall
    simp only [autosave_tick]
    rcases hstep : autosave_step dir now fs d with ⟨fs1, ops1⟩
    rcases htick : autosave_tick dir now fs1 docs with ⟨fs2, docs2, ops2⟩
    simp only
    have h1 : fs1 = fs := by
      by_cases hd : d.dirty = true
      · have := autosave_step_dirty_fail dir now fs d hd
          (hall d (List.mem_cons_self _ _) hd)
        rw [hstep] at this
        exact ((Prod.mk.injEq _ _ _ _).mp this).1
      · have := autosave_step_clean dir now fs d hd
        rw [hstep] at this
        exact ((Prod.mk.injEq _ _ _ _).mp this).1
    have h2 : fs2 = fs1 := by
      have := ih fs1 (by
        rw [h1]
        intro d2 hm hd2
        exact hall d2 (List.mem_cons_of_mem _ hm) hd2)
      rw [htick] at this
      exact this
    rw [h2, h1]

theorem mem_dirtySnapshotWrites (dir : String) (now : List Char) (d : Document)
    (docs : List Document) (h : d ∈ docs) (hd : d.dirty = true) :
    FsOp.write (snapPath dir d) (snapshotJson now d) ∈ dirtySnapshotWrites dir now docs := by
  unfold dirtySnapshotWrites
  exact List.mem_map_of_mem _ (List.mem_filter.mpr ⟨h, hd⟩)

/-- Claim C4: one autosave tick attempts exactly one snapshot write per
dirty document (keyed by its session id path, with the serialized
snapshot), never touches the file of any other path — in particular no
clean document's snapshot is written or rewritten — and, when the write
succeeds and session paths are distinct, the dirty document's snapshot file
afterwards holds exactly the new serialization (overwriting any prior
content). -/
theorem C4_autosave_tick (dir : String) (now : List Char) (fs : FS) (docs : List Document) :
    (autosave_tick dir now fs docs).2.2 = dirtySnapshotWrites dir now docs ∧
    (∀ p, p ∉ dirtySnapPaths dir docs →
      lookupFile (autosave_tick dir now fs docs).1 p = lookupFile fs p) ∧
    (∀ d ∈ docs, d.dirty = true → snapPath dir d ∉ fs.failing →
      (dirtySnapPaths dir docs).Nodup →
      lookupFile (autosave_tick dir now fs docs).1 (snapPath dir d) =
        some (snapshotJson now d)) :=
  ⟨autosave_tick_ops dir now docs fs,
   fun p hp => autosave_tick_frame dir now docs fs p hp,
   fun d hm hd hf hn => autosave_tick_lookup_dirty dir now docs fs d hm hd hf hn⟩

theorem C4_autosave_tick_witness :
    (autosave_tick "as" ['1'] (FS.mk [] [])
        [Document.mk none "u" false "h" "id2", Document.mk none "t" true "h" "id1"]).2.2 =
      dirtySnapshotWrites "as" ['1']
        [Document.mk none "u" false "h" "id2", Document.mk none "t" true "h" "id1"] ∧
    lookupFile (autosave_tick "as" ['1'] (FS.mk [] [])
        [Document.mk none "u" false "h" "id2", Document.mk none "t" true "h" "id1"]).1 "q" =
      lookupFile (FS.mk [] []) "q" ∧
    lookupFile (autosave_tick "as" ['1'] (FS.mk [] [])
        [Document.mk none "u" false "h" "id2", Document.mk none "t" true "h" "id1"]).1
        (snapPath "as" (Document.mk none "t" true "h" "id1")) =
      some (snapshotJson ['1'] (Document.mk none "t" true "h" "id1")) :=
  ⟨(C4_autosave_tick "as" ['1'] (FS.mk [] []) _).1,
   (C4_autosave_tick "as" ['1'] (FS.mk [] []) _).2.1 "q" (by decide),
   (C4_autosave_tick "as" ['1'] (FS.mk [] []) _).2.2 _
     (by simp) rfl (by decide) (by decide)⟩

/-- Claim C5: a failing snapshot write is swallowed: the tick is a total
function whose document list is returned unchanged, the attempted writes
are exactly the dirty documents' snapshots regardless of the filesystem
(so the remaining documents are still attempted after a failure, and the
same write is attempted again on the next tick), and if every dirty
document's write fails the filesystem is left untouched. -/
theorem C5_autosave_failure (dir : String) (now : List Char) (fs : FS) (docs : List Document) :
    (autosave_tick dir now fs docs).2.1 = docs ∧
    (autosave_tick dir now fs docs).2.2 = dirtySnapshotWrites dir now docs ∧
    (∀ fs2 : FS, (autosave_tick dir now fs2 docs).2.2 = (autosave_tick dir now fs docs).2.2) ∧
    (∀ d ∈ docs, d.dirty = true →
      FsOp.write (snapPath dir d) (snapshotJson now d) ∈
        (autosave_tick dir now (autosave_tick dir now fs docs).1 docs).2.2) ∧
    ((∀ d ∈ docs, d.dirty = true → snapPath dir d ∈ fs.failing) →
      (autosave_tick dir now fs docs).1 = fs) := by
  refine ⟨autosave_tick_docs dir now docs fs, autosave_tick_ops dir now docs fs, ?_, ?_, ?_⟩
  · intro fs2
    rw [autosave_tick_ops dir now docs fs2, autosave_tick_ops dir now docs fs]
  · intro d hm hd
    rw [autosave_tick_ops dir now docs _]
    exact mem_dirtySnapshotWrites dir now d docs hm hd
  · exact autosave_tick_allfail dir now docs fs

theorem C5_autosave_failure_witness :
    (autosave_tick "as" ['1'] (FS.mk [] ["as/i.json"]) [Document.mk none "t" true "h" "i"]).2.1 =
      [Document.mk none "t" true "h" "i"] ∧
    (autosave_tick "as" ['1'] (FS.mk [] ["as/i.json"]) [Document.mk none "t" true "h" "i"]).2.2 =
      dirtySnapshotWrites "as" ['1'] [Document.mk none "t" true "h" "i"] ∧
    FsOp.write (snapPath "as" (Document.mk none "t" true "h" "i"))
        (snapshotJson ['1'] (Document.mk none "t" true "h" "i")) ∈
      (autosave_tick "as" ['1']
        (autosave_tick "as" ['1'] (FS.mk [] ["as/i.json"])
          [Document.mk none "t" true "h" "i"]).1
        [Document.mk none "t" true "h" "i"]).2.2 ∧
    (autosave_tick "as" ['1'] (FS.mk [] ["as/i.json"]) [Document.mk none "t" true "h" "i"]).1 =
      FS.mk [] ["as/i.json"] :=
  ⟨(C5_autosave_failure "as" ['1'] (FS.mk [] ["as/i.json"]) _).1,
   (C5_autosave_failure "as" ['1'] (FS.mk [] ["as/i.json"]) _).2.1,
   (C5_autosave_failure "as" ['1'] (FS.mk [] ["as/i.json"]) _).2.2.2.1 _
     (by simp) rfl,
   (C5_autosave_failure "as" ['1'] (FS.mk [] ["as/i.json"]) _).2.2.2.2 (by decide)⟩

/-- Claim C9: a successful manual save (backing path present, write
succeeds) writes exactly the document's file and calls `mark_saved`; it
performs no delete, and the document's autosave snapshot file — any path
other than the saved file, in particular the snapshot path when distinct —
is left exactly as it was on disk. -/
theorem save_state_ops (sd : String) (fs : FS) (st : AppState) :
    (save_state sd fs st).2 = [FsOp.write (statePath sd) (String.mk (stateDump st))] := by
  unfold save_state
  cases writeFile fs (statePath sd) (String.mk (stateDump st)) <;> rfl

theorem save_state_lookup_ne (sd : String) (fs : FS) (st : AppState) (q : String)
    (h : q ≠ statePath sd) :
    lookupFile (save_state sd fs st).1 q = lookupFile fs q := by
  unfold save_state writeFile
  by_cases hf : statePath sd ∈ fs.failing
  · rw [if_pos hf]
  · rw [if_neg hf]
    exact lookupEntry_setEntry_ne fs.files (statePath sd) _ q h

/-- `state.json` and any autosave snapshot file live at provably different
paths: under the shared `state_dir` prefix the former continues with
`/state.json`, the latter with `/autosave/...`. -/
theorem statePath_ne_snapPath (sd : String) (d : Document) :
    statePath sd ≠ snapPath (autosaveDir sd) d := by
  intro h
  have h2 : (statePath sd).data = (snapPath (autosaveDir sd) d).data := congrArg String.data h
  simp only [statePath, snapPath, autosaveDir, String.data_append, List.append_assoc] at h2
  have h3 := List.append_cancel_left h2
  simp only [List.cons_append, List.nil_append] at h3
  injection h3 with _ h4
  injection h4 with h5 _
  exact absurd h5 (by decide)

/-- Claim C9: a successful manual save of a document writes the document's
own file and (twice, via `add_recent` and the explicit `_save_state`) the
`state.json` file, and nothing else: the trace holds exactly those three
writes and no delete, every path other than the two written ones keeps its
exact prior content, and in particular the document's autosave snapshot
file — provably distinct from `state.json` — is neither deleted nor
modified, so a stale snapshot stays on disk indefinitely after the save. -/
theorem C9_save_doc (abspath : String → String) (sd : String) (fs : FS) (st : AppState)
    (d : Document) (p : String) (hp : d.filepath = some p) (hp0 : p ≠ "")
    (hok : p ∉ fs.failing) (hne : p ≠ snapPath (autosaveDir sd) d) :
    (save_doc abspath sd fs st d).2.2.2.1 = true ∧
    (save_doc abspath sd fs st d).2.2.1 = d.mark_saved ∧
    (save_doc abspath sd fs st d).2.2.2.2 =
      [FsOp.write p d.get_text,
       FsOp.write (statePath sd) (String.mk (stateDump (add_recent abspath st p))),
       FsOp.write (statePath sd) (String.mk (stateDump (add_recent abspath st p)))] ∧
    lookupFile (save_doc abspath sd fs st d).1 (snapPath (autosaveDir sd) d) =
      lookupFile fs (snapPath (autosaveDir sd) d) ∧
    (∀ q, q ≠ p → q ≠ statePath sd →
      lookupFile (save_doc abspath sd fs st d).1 q = lookupFile fs q) := by
  have hframe : ∀ q, q ≠ p → q ≠ statePath sd →
      lookupFile (save_doc abspath sd fs st d).1 q = lookupFile fs q := by
    intro q hq1 hq2
    simp only [save_doc, hp, if_neg hp0, writeFile, if_neg hok]
    rw [save_state_lookup_ne sd _ _ q hq2, save_state_lookup_ne sd _ _ q hq2]
    exact lookupEntry_setEntry_ne fs.files p d.get_text q hq1
  refine ⟨?_, ?_, ?_, ?_, hframe⟩
  · simp only [save_doc, hp, if_neg hp0, writeFile, if_neg hok]
  · simp only [save_doc, hp, if_neg hp0, writeFile, if_neg hok]
  · simp only [save_doc, hp, if_neg hp0, writeFile, if_neg hok]
    rw [save_state_ops, save_state_ops]
    rfl
  · exact hframe (snapPath (autosaveDir sd) d) (fun hh => hne hh.symm)
      (fun hh => statePath_ne_snapPath sd d hh.symm)

theorem C9_save_doc_witness :
    (save_doc id "sd" (FS.mk [("sd/autosave/i.json", "snap")] []) (AppState.mk [] 15 false)
        (Document.mk (some "f") "t" true "h" "i")).2.2.2.1 = true ∧
    (save_doc id "sd" (FS.mk [("sd/autosave/i.json", "snap")] []) (AppState.mk [] 15 false)
        (Document.mk (some "f") "t" true "h" "i")).2.2.1 =
      (Document.mk (some "f") "t" true "h" "i").mark_saved ∧
    (save_doc id "sd" (FS.mk [("sd/autosave/i.json", "snap")] []) (AppState.mk [] 15 false)
        (Document.mk (some "f") "t" true "h" "i")).2.2.2.2 =
      [FsOp.write "f" (Document.mk (some "f") "t" true "h" "i").get_text,
       FsOp.write (statePath "sd")
         (String.mk (stateDump (add_recent id (AppState.mk [] 15 false) "f"))),
       FsOp.write (statePath "sd")
         (String.mk (stateDump (add_recent id (AppState.mk [] 15 false) "f")))] ∧
    lookupFile (save_doc id "sd" (FS.mk [("sd/autosave/i.json", "snap")] [])
        (AppState.mk [] 15 false) (Document.mk (some "f") "t" true "h" "i")).1
        (snapPath (autosaveDir "sd") (Document.mk (some "f") "t" true "h" "i")) =
      lookupFile (FS.mk [("sd/autosave/i.json", "snap")] [])
        (snapPath (autosaveDir "sd") (Document.mk (some "f") "t" true "h" "i")) ∧
    (∀ q, q ≠ "f" → q ≠ statePath "sd" →
      lookupFile (save_doc id "sd" (FS.mk [("sd/autosave/i.json", "snap")] [])
          (AppState.mk [] 15 false) (Document.mk (some "f") "t" true "h" "i")).1 q =
        lookupFile (FS.mk [("sd/autosave/i.json", "snap")] []) q) :=
  C9_save_doc id "sd" (FS.mk [("sd/autosave/i.json", "snap")] []) (AppState.mk [] 15 false)
    (Document.mk (some "f") "t" true "h" "i") "f" rfl (by decide) (by decide) (by decide)

/-! ## C2, C3, C6: snapshot serialization round trip and recovery -/

theorem hexVal_hexDig : ∀ d, d < 16 → hexVal (hexDig d) = some d := by decide

theorem toHexN4 (n : Nat) : toHexN 4 n =
    [hexDig (n / 4096 % 16), hexDig (n / 256 % 16), hexDig (n / 16 % 16), hexDig (n % 16)] := by
  simp only [toHexN, Nat.div_div_eq_div_mul, List.nil_append, List.cons_append,
    List.append_assoc, List.singleton_append]

theorem hexQuad_toHexN (n : Nat) (h : n < 65536) (rest : List Char) :
    hexQuad (toHexN 4 n ++ rest) = some (n, rest) := by
  rw [toHexN4]
  simp only [List.cons_append, List.nil_append, hexQuad]
  rw [hexVal_hexDig _ (Nat.mod_lt _ (by norm_num)),
    hexVal_hexDig _ (Nat.mod_lt _ (by norm_num)),
    hexVal_hexDig _ (Nat.mod_lt _ (by norm_num)),
    hexVal_hexDig _ (Nat.mod_lt _ (by norm_num))]
  simp only [Option.some.injEq, Prod.mk.injEq]
  constructor
  · omega
  · trivial

theorem escStr_cons (c : Char) (l : List Char) : escStr (c :: l) = escapeChar c ++ escStr l := by
  simp [escStr]

theorem escStr_nil : escStr [] = [] := rfl

theorem escapeChar_length_pos (c : Char) : 0 < (escapeChar c).length := by
  unfold escapeChar
  by_cases e1 : c = '\\'
  · rw [if_pos e1]
    decide
  rw [if_neg e1]
  by_cases e2 : c = '"'
  · rw [if_pos e2]
    decide
  rw [if_neg e2]
  by_cases e3 : c = Char.ofNat 8
  · rw [if_pos e3]
    decide
  rw [if_neg e3]
  by_cases e4 : c = Char.ofNat 9
  · rw [if_pos e4]
    decide
  rw [if_neg e4]
  by_cases e5 : c = Char.ofNat 10
  · rw [if_pos e5]
    decide
  rw [if_neg e5]
  by_cases e6 : c = Char.ofNat 12
  · rw [if_pos e6]
    decide
  rw [if_neg e6]
  by_cases e7 : c = Char.ofNat 13
  · rw [if_pos e7]
    decide
  rw [if_neg e7]
  by_cases e8 : c.toNat < 0x20
  · rw [if_pos e8]
    simp
  rw [if_neg e8]
  by_cases e9 : c.toNat ≤ 0x7E
  · rw [if_pos e9]
    simp
  rw [if_neg e9]
  by_cases e10 : c.toNat < 0x10000
  · rw [if_pos e10]
    simp
  rw [if_neg e10]
  simp

theorem escStr_length_ge (l : List Char) : l.length ≤ (escStr l).length := by
  induction l with
  | nil => simp [escStr]
  | cons c l ih =>
    rw [escStr_cons]
    simp only [List.length_append, List.length_cons]
    have := escapeChar_length_pos c
    omega

theorem parseJStrAux_succ_quote (k : Nat) (rest : List Char) :
    parseJStrAux (k + 1) ('"' :: rest) = some ([], rest) := by
  simp [parseJStrAux]

theorem parseJStrAux_succ_esc (k : Nat) (e dc : Char) (tail : List Char)
    (hu : ¬ e = 'u') (hd : escDecode e = some dc) :
    parseJStrAux (k + 1) ('\\' :: e :: tail) =
      (parseJStrAux k tail).map (fun p => (dc :: p.1, p.2)) := by
  simp only [parseJStrAux, if_true]
  rw [if_neg hu, hd, if_neg (by decide : ¬('\\' : Char) = '"')]

theorem parseJStrAux_succ_u (k n : Nat) (tail : List Char) (hn : n < 65536)
    (hv : n < 0xD800 ∨ 0xE000 ≤ n) :
    parseJStrAux (k + 1) ('\\' :: 'u' :: (toHexN 4 n ++ tail)) =
      (parseJStrAux k tail).map (fun p => (Char.ofNat n :: p.1, p.2)) := by
  simp only [parseJStrAux, if_true, hexQuad_toHexN n hn tail]
  rw [if_pos hv, if_neg (by decide : ¬('\\' : Char) = '"')]

theorem parseJStrAux_succ_surr (k : Nat) (tail : List Char) (hi lo n : Nat)
    (hhi_eq : 0xD800 + (n - 0x10000) / 1024 = hi)
    (hlo_eq : 0xDC00 + (n - 0x10000) % 1024 = lo)
    (h1 : 0x10000 ≤ n) (h2 : n < 0x110000) :
    parseJStrAux (k + 1)
      ('\\' :: 'u' :: (toHexN 4 hi ++ ('\\' :: 'u' :: (toHexN 4 lo ++ tail)))) =
      (parseJStrAux k tail).map (fun p => (Char.ofNat n :: p.1, p.2)) := by
  have hhi : hi < 65536 := by omega
  have hlo : lo < 65536 := by omega
  simp only [parseJStrAux, if_true, hexQuad_toHexN _ hhi _]
  rw [if_neg (by omega : ¬(hi < 0xD800 ∨ 0xE000 ≤ hi))]
  rw [if_pos (by omega : hi < 0xDC00)]
  rw [if_pos (by simp : ('\\' :: 'u' :: (toHexN 4 lo ++ tail)).take 2 = ['\\', 'u'])]
  simp only [List.drop_succ_cons, List.drop_zero, hexQuad_toHexN _ hlo _]
  rw [if_pos (by omega : 0xDC00 ≤ lo ∧ lo < 0xE000)]
  have harith : 0x10000 + (hi - 0xD800) * 1024 + (lo - 0xDC00) = n := by omega
  rw [harith, if_neg (by decide : ¬('\\' : Char) = '"')]

theorem parseJStrAux_succ_lit (k : Nat) (c : Char) (tail : List Char)
    (h1 : ¬ c = '"') (h2 : ¬ c = '\\') (h3 : ¬ c.toNat < 0x20) :
    parseJStrAux (k + 1) (c :: tail) =
      (parseJStrAux k tail).map (fun p => (c :: p.1, p.2)) := by
  simp only [parseJStrAux]
  rw [if_neg h1, if_neg h2, if_neg h3]

theorem parseJStrAux_escape : ∀ (l : List Char) (fuel : Nat) (rest : List Char),
    l.length < fuel → parseJStrAux fuel (escStr l ++ '"' :: rest) = some (l, rest) := by
  intro l
  induction l with
  | nil =>
    intro fuel rest hf
    cases fuel with
    | zero => simp at hf
    | succ k =>
      rw [escStr_nil, List.nil_append, parseJStrAux_succ_quote]
  | cons c l ih =>
    intro fuel rest hf
    cases fuel with
    | zero => simp at hf
    | succ k =>
      have hfl : l.length < k := by
        simp only [List.length_cons] at hf
        omega
      have hrec := ih k rest hfl
      rw [escStr_cons, List.append_assoc]
      by_cases e1 : c = '\\'
      · subst e1
        rw [show escapeChar '\\' = ['\\', '\\'] from rfl]
        rw [show (['\\', '\\'] : List Char) ++ (escStr l ++ '"' :: rest) =
          '\\' :: '\\' :: (escStr l ++ '"' :: rest) from rfl]
        rw [parseJStrAux_succ_esc k '\\' '\\' _ (by decide) rfl, hrec]
        rfl
      by_cases e2 : c = '"'
      · subst e2
        rw [show escapeChar '"' = ['\\', '"'] from rfl]
        rw [show (['\\', '"'] : List Char) ++ (escStr l ++ '"' :: rest) =
          '\\' :: '"' :: (escStr l ++ '"' :: rest) from rfl]
        rw [parseJStrAux_succ_esc k '"' '"' _ (by decide) rfl, hrec]
        rfl
      by_cases e3 : c = Char.ofNat 8
      · subst e3
        rw [show escapeChar (Char.ofNat 8) = ['\\', 'b'] from rfl]
        rw [show (['\\', 'b'] : List Char) ++ (escStr l ++ '"' :: rest) =
          '\\' :: 'b' :: (escStr l ++ '"' :: rest) from rfl]
        rw [parseJStrAux_succ_esc k 'b' (Char.ofNat 8) _ (by decide) rfl, hrec]
        rfl
      by_cases e4 : c = Char.ofNat 9
      · subst e4
        rw [show escapeChar (Char.ofNat 9) = ['\\', 't'] from rfl]
        rw [show (['\\', 't'] : List Char) ++ (escStr l ++ '"' :: rest) =
          '\\' :: 't' :: (escStr l ++ '"' :: rest) from rfl]
        rw [parseJStrAux_succ_esc k 't' (Char.ofNat 9) _ (by decide) rfl, hrec]
        rfl
      by_cases e5 : c = Char.ofNat 10
      · subst e5
        rw [show escapeChar (Char.ofNat 10) = ['\\', 'n'] from rfl]
        rw [show (['\\', 'n'] : List Char) ++ (escStr l ++ '"' :: rest) =
          '\\' :: 'n' :: (escStr l ++ '"' :: rest) from rfl]
        rw [parseJStrAux_succ_esc k 'n' (Char.ofNat 10) _ (by decide) rfl, hrec]
        rfl
      by_cases e6 : c = Char.ofNat 12
      · subst e6
        rw [show escapeChar (Char.ofNat 12) = ['\\', 'f'] from rfl]
        rw [show (['\\', 'f'] : List Char) ++ (escStr l ++ '"' :: rest) =
          '\\' :: 'f' :: (escStr l ++ '"' :: rest) from rfl]
        rw [parseJStrAux_succ_esc k 'f' (Char.ofNat 12) _ (by decide) rfl, hrec]
        rfl
      by_cases e7 : c = Char.ofNat 13
      · subst e7
        rw [show escapeChar (Char.ofNat 13) = ['\\', 'r'] from rfl]
        rw [show (['\\', 'r'] : List Char) ++ (escStr l ++ '"' :: rest) =
          '\\' :: 'r' :: (escStr l ++ '"' :: rest) from rfl]
        rw [parseJStrAux_succ_esc k 'r' (Char.ofNat 13) _ (by decide) rfl, hrec]
        rfl
      by_cases e8 : c.toNat < 0x20
      · have hesc : escapeChar c = '\\' :: 'u' :: toHexN 4 c.toNat := by
          unfold escapeChar
          rw [if_neg e1, if_neg e2, if_neg e3, if_neg e4, if_neg e5, if_neg e6, if_neg e7,
            if_pos e8]
        rw [hesc]
        rw [show ('\\' :: 'u' :: toHexN 4 c.toNat) ++ (escStr l ++ '"' :: rest) =
          '\\' :: 'u' :: (toHexN 4 c.toNat ++ (escStr l ++ '"' :: rest)) by simp]
        rw [parseJStrAux_succ_u k c.toNat _ (by omega) (by omega), hrec, Char.ofNat_toNat]
        rfl
      by_cases e9 : c.toNat ≤ 0x7E
      · have hesc : escapeChar c = [c] := by
          unfold escapeChar
          rw [if_neg e1, if_neg e2, if_neg e3, if_neg e4, if_neg e5, if_neg e6, if_neg e7,
            if_neg e8, if_pos e9]
        rw [hesc]
        rw [show ([c] : List Char) ++ (escStr l ++ '"' :: rest) =
          c :: (escStr l ++ '"' :: rest) from rfl]
        rw [parseJStrAux_succ_lit k c _ e2 e1 e8, hrec]
        rfl
      by_cases e10 : c.toNat < 0x10000
      · have hesc : escapeChar c = '\\' :: 'u' :: toHexN 4 c.toNat := by
          unfold escapeChar
          rw [if_neg e1, if_neg e2, if_neg e3, if_neg e4, if_neg e5, if_neg e6, if_neg e7,
            if_neg e8, if_neg e9, if_pos e10]
        have hv : c.toNat < 0xD800 ∨ 0xE000 ≤ c.toNat := by
          rcases char_valid_nat c with h | h
          · exact Or.inl h
          · exact Or.inr (by omega)
        rw [hesc]
        rw [show ('\\' :: 'u' :: toHexN 4 c.toNat) ++ (escStr l ++ '"' :: rest) =
          '\\' :: 'u' :: (toHexN 4 c.toNat ++ (escStr l ++ '"' :: rest)) by simp]
        rw [parseJStrAux_succ_u k c.toNat _ (by omega) hv, hrec, Char.ofNat_toNat]
        rfl
      · have hesc : escapeChar c =
            ('\\' :: 'u' :: toHexN 4 (0xD800 + (c.toNat - 0x10000) / 0x400))
              ++ ('\\' :: 'u' :: toHexN 4 (0xDC00 + (c.toNat - 0x10000) % 0x400)) := by
          unfold escapeChar
          rw [if_neg e1, if_neg e2, if_neg e3, if_neg e4, if_neg e5, if_neg e6, if_neg e7,
            if_neg e8, if_neg e9, if_neg e10]
        have h2 : c.toNat < 0x110000 := by
          rcases char_valid_nat c with h | h
          · omega
          · omega
        rw [hesc]
        rw [show (('\\' :: 'u' :: toHexN 4 (0xD800 + (c.toNat - 0x10000) / 0x400))
              ++ ('\\' :: 'u' :: toHexN 4 (0xDC00 + (c.toNat - 0x10000) % 0x400)))
              ++ (escStr l ++ '"' :: rest) =
            '\\' :: 'u' :: (toHexN 4 (0xD800 + (c.toNat - 0x10000) / 1024) ++
              ('\\' :: 'u' :: (toHexN 4 (0xDC00 + (c.toNat - 0x10000) % 1024) ++
                (escStr l ++ '"' :: rest)))) by simp]
        rw [parseJStrAux_succ_surr k _ _ _ c.toNat rfl rfl (by omega) h2, hrec,
          Char.ofNat_toNat]
        rfl

theorem parseJString_escape (l rest : List Char) :
    parseJString (escStr l ++ '"' :: rest) = some (l, rest) := by
  unfold parseJString
  apply parseJStrAux_escape
  have := escStr_length_ge l
  simp only [List.length_append, List.length_cons]
  omega

theorem digit_ne (c a : Char) (h : c.isDigit = true) (ha : a.isDigit = false) : ¬ c = a := by
  intro hEq
  subst hEq
  rw [h] at ha
  cases ha

theorem takeWhile_digits_append (ds r : List Char) (hall : ds.all Char.isDigit = true)
    (hr : ∀ c, r.head? = some c → c.isDigit = false) :
    (ds ++ r).takeWhile Char.isDigit = ds ∧ (ds ++ r).dropWhile Char.isDigit = r := by
  induction ds with
  | nil =>
    simp only [List.nil_append]
    cases r with
    | nil => exact ⟨rfl, rfl⟩
    | cons c t =>
      have hc := hr c rfl
      constructor
      · simp [List.takeWhile_cons, hc]
      · simp [List.dropWhile_cons, hc]
  | cons d ds ih =>
    simp only [List.all_cons, Bool.and_eq_true] at hall
    obtain ⟨h1, h2⟩ := ih hall.2
    constructor
    · simp [List.takeWhile_cons, hall.1, h1]
    · simp [List.dropWhile_cons, hall.1, h2]

theorem parseFrac_skip (l : List Char) (h : ∀ c, l.head? = some c → ¬ c = '.') :
    parseFrac l = ([], l) := by
  unfold parseFrac
  split
  · exact absurd rfl (h '.' rfl)
  · rfl

theorem parseFrac_dot (ds r : List Char) (hds : ds ≠ []) (hall : ds.all Char.isDigit = true)
    (hr : ∀ c, r.head? = some c → c.isDigit = false) :
    parseFrac ('.' :: (ds ++ r)) = ('.' :: ds, r) := by
  obtain ⟨htw, hdw⟩ := takeWhile_digits_append ds r hall hr
  simp only [parseFrac]
  rw [htw, hdw, if_neg hds]

theorem parseExp_skip (l : List Char) (h : ∀ c, l.head? = some c → ¬ c = 'e' ∧ ¬ c = 'E') :
    parseExp l = ([], l) := by
  unfold parseExp
  split
  · rename_i c t
    have hc := h c rfl
    rw [if_neg (by intro hor; rcases hor with h1 | h1; exact hc.1 h1; exact hc.2 h1)]
  · rfl

theorem parseExp_e (e : Char) (ds r : List Char) (he : e = 'e' ∨ e = 'E')
    (hds : ds ≠ []) (hall : ds.all Char.isDigit = true)
    (hr : ∀ c, r.head? = some c → c.isDigit = false) :
    parseExp (e :: (ds ++ r)) = (e :: ds, r) := by
  obtain ⟨htw, hdw⟩ := takeWhile_digits_append ds r hall hr
  obtain ⟨d, ds', rfl⟩ : ∃ d ds', ds = d :: ds' := by
    cases ds with
    | nil => exact absurd rfl hds
    | cons d ds' => exact ⟨d, ds', rfl⟩
  have hd : d.isDigit = true := by
    simp only [List.all_cons, Bool.and_eq_true] at hall
    exact hall.1
  simp only [parseExp, List.cons_append]
  rw [if_pos he]
  rw [if_neg (by
    intro hor
    rcases hor with h1 | h1
    · exact digit_ne d '+' hd (by decide) h1
    · exact digit_ne d '-' hd (by decide) h1)]
  simp only [List.cons_append] at htw hdw
  rw [htw, hdw]
  rw [if_neg (by simp)]

theorem parseExp_e_sign (e s : Char) (ds r : List Char) (he : e = 'e' ∨ e = 'E')
    (hs : s = '+' ∨ s = '-') (hds : ds ≠ []) (hall : ds.all Char.isDigit = true)
    (hr : ∀ c, r.head? = some c → c.isDigit = false) :
    parseExp (e :: s :: (ds ++ r)) = (e :: s :: ds, r) := by
  obtain ⟨htw, hdw⟩ := takeWhile_digits_append ds r hall hr
  simp only [parseExp]
  rw [if_pos he, if_pos hs, htw, hdw, if_neg hds]

theorem exr_head_not_dot (ex r : List Char)
    (hex : ex = [] ∨ ∃ e sgn ds, ex = e :: sgn ++ ds ∧ (e = 'e' ∨ e = 'E') ∧
      (sgn = [] ∨ sgn = ['+'] ∨ sgn = ['-']) ∧ ds ≠ [] ∧ ds.all Char.isDigit = true)
    (hr : NumBoundary r) :
    ∀ c, (ex ++ r).head? = some c → ¬ c = '.' := by
  rcases hex with hex0 | ⟨e, sgn, ds, hexeq, he, _, _, _⟩
  · subst hex0
    intro c hc
    exact (hr c hc).2.1
  · subst hexeq
    intro c hc
    simp only [List.cons_append, List.head?_cons, Option.some.injEq] at hc
    subst hc
    rcases he with h1 | h1 <;> subst h1 <;> decide

theorem frexr_head_not_digit (fr ex r : List Char)
    (hfr : fr = [] ∨ ∃ ds, fr = '.' :: ds ∧ ds ≠ [] ∧ ds.all Char.isDigit = true)
    (hex : ex = [] ∨ ∃ e sgn ds, ex = e :: sgn ++ ds ∧ (e = 'e' ∨ e = 'E') ∧
      (sgn = [] ∨ sgn = ['+'] ∨ sgn = ['-']) ∧ ds ≠ [] ∧ ds.all Char.isDigit = true)
    (hr : NumBoundary r) :
    ∀ c, (fr ++ (ex ++ r)).head? = some c → c.isDigit = false := by
  rcases hfr with hfr0 | ⟨ds, hfeq, _, _⟩
  · subst hfr0
    simp only [List.nil_append]
    rcases hex with hex0 | ⟨e, sgn, eds, hexeq, he, _, _, _⟩
    · subst hex0
      intro c hc
      exact (hr c hc).1
    · subst hexeq
      intro c hc
      simp only [List.cons_append, List.head?_cons, Option.some.injEq] at hc
      subst hc
      rcases he with h1 | h1 <;> subst h1 <;> decide
  · subst hfeq
    intro c hc
    simp only [List.cons_append, List.head?_cons, Option.some.injEq] at hc
    subst hc
    decide

theorem parseFracExp_spec (fr ex r : List Char)
    (hfr : fr = [] ∨ ∃ ds, fr = '.' :: ds ∧ ds ≠ [] ∧ ds.all Char.isDigit = true)
    (hex : ex = [] ∨ ∃ e sgn ds, ex = e :: sgn ++ ds ∧ (e = 'e' ∨ e = 'E') ∧
      (sgn = [] ∨ sgn = ['+'] ∨ sgn = ['-']) ∧ ds ≠ [] ∧ ds.all Char.isDigit = true)
    (hr : NumBoundary r) :
    parseFrac (fr ++ (ex ++ r)) = (fr, ex ++ r) ∧ parseExp (ex ++ r) = (ex, r) := by
  have hrd : ∀ c, r.head? = some c → c.isDigit = false := fun c hc => (hr c hc).1
  have hexpart : parseExp (ex ++ r) = (ex, r) := by
    rcases hex with hex0 | ⟨e, sgn, ds, hexeq, he, hsgn, hds, hall⟩
    · subst hex0
      simp only [List.nil_append]
      apply parseExp_skip
      intro c hc
      exact ⟨(hr c hc).2.2.1, (hr c hc).2.2.2⟩
    · subst hexeq
      rcases hsgn with h0 | h1 | h1
      · subst h0
        simp only [List.nil_append, List.cons_append]
        exact parseExp_e e ds r he hds hall hrd
      · subst h1
        simp only [List.cons_append, List.singleton_append]
        exact parseExp_e_sign e '+' ds r he (Or.inl rfl) hds hall hrd
      · subst h1
        simp only [List.cons_append, List.singleton_append]
        exact parseExp_e_sign e '-' ds r he (Or.inr rfl) hds hall hrd
  refine ⟨?_, hexpart⟩
  rcases hfr with hfr0 | ⟨ds, hfeq, hds, hall⟩
  · subst hfr0
    simp only [List.nil_append]
    exact parseFrac_skip _ (exr_head_not_dot ex r hex hr)
  · subst hfeq
    simp only [List.cons_append]
    apply parseFrac_dot ds (ex ++ r) hds hall
    rcases hex with hex0 | ⟨e, sgn, eds, hexeq, he, _, _, _⟩
    · subst hex0
      intro c hc
      exact (hr c hc).1
    · subst hexeq
      intro c hc
      simp only [List.cons_append, List.head?_cons, Option.some.injEq] at hc
      subst hc
      rcases he with h1 | h1 <;> subst h1 <;> decide

theorem parseNumBody_spec (ip fr ex r : List Char)
    (hip : ip = ['0'] ∨ ip ≠ [] ∧ ip.all Char.isDigit = true ∧ ip.head? ≠ some '0')
    (hfr : fr = [] ∨ ∃ ds, fr = '.' :: ds ∧ ds ≠ [] ∧ ds.all Char.isDigit = true)
    (hex : ex = [] ∨ ∃ e sgn ds, ex = e :: sgn ++ ds ∧ (e = 'e' ∨ e = 'E') ∧
      (sgn = [] ∨ sgn = ['+'] ∨ sgn = ['-']) ∧ ds ≠ [] ∧ ds.all Char.isDigit = true)
    (hr : NumBoundary r) :
    parseNumBody (ip ++ (fr ++ (ex ++ r))) = some (ip ++ (fr ++ ex), r) := by
  obtain ⟨hcomp1, hcomp2⟩ := parseFracExp_spec fr ex r hfr hex hr
  rcases hip with h0 | ⟨hne, hall, hhead⟩
  · subst h0
    simp only [List.singleton_append, parseNumBody, if_true]
    rw [hcomp1]
    dsimp only
    rw [hcomp2]
  · obtain ⟨d, ds, rfl⟩ : ∃ d ds, ip = d :: ds := by
      cases ip with
      | nil => exact absurd rfl hne
      | cons d ds => exact ⟨d, ds, rfl⟩
    simp only [List.all_cons, Bool.and_eq_true] at hall
    have hd0 : ¬ d = '0' := by
      intro hEq
      apply hhead
      rw [hEq]
      rfl
    obtain ⟨htw, hdw⟩ := takeWhile_digits_append ds (fr ++ (ex ++ r)) hall.2
      (frexr_head_not_digit fr ex r hfr hex hr)
    simp only [List.cons_append, parseNumBody]
    rw [if_neg hd0, if_pos hall.1, hdw, hcomp1]
    dsimp only
    rw [hcomp2]
    dsimp only
    rw [htw]
    simp [List.append_assoc]

theorem parseNumLit_spec (l r : List Char) (hl : NumLitOk l) (hr : NumBoundary r) :
    parseNumLit (l ++ r) = some (l, r) := by
  obtain ⟨neg, ip, fr, ex, rfl, hneg, hip, hfr, hex⟩ := hl
  have hbody := parseNumBody_spec ip fr ex r hip hfr hex hr
  have hipd : ∀ c, ip.head? = some c → c.isDigit = true := by
    rcases hip with h0 | ⟨hne, hall, _⟩
    · subst h0
      intro c hc
      simp only [List.head?_cons, Option.some.injEq] at hc
      subst hc
      decide
    · intro c hc
      cases ip with
      | nil => cases hc
      | cons d ds =>
        simp only [List.head?_cons, Option.some.injEq] at hc
        subst hc
        simp only [List.all_cons, Bool.and_eq_true] at hall
        exact hall.1
  have hipne : ip ≠ [] := by
    rcases hip with h0 | ⟨hne, _, _⟩
    · subst h0
      simp
    · exact hne
  obtain ⟨d, ds, rfl⟩ : ∃ d ds, ip = d :: ds := by
    cases ip with
    | nil => exact absurd rfl hipne
    | cons d ds => exact ⟨d, ds, rfl⟩
  have hd : d.isDigit = true := hipd d rfl
  rcases hneg with h0 | h1
  · subst h0
    simp only [List.nil_append, List.append_assoc, List.cons_append]
    unfold parseNumLit
    split
    · rename_i l1 heq
      exact absurd (List.head_eq_of_cons_eq heq.symm).symm (digit_ne d '-' hd (by decide))
    · simp only [List.cons_append] at hbody
      rw [hbody]
  · subst h1
    simp only [List.cons_append, List.nil_append, List.append_assoc, List.singleton_append]
    simp only [parseNumLit]
    simp only [List.cons_append] at hbody
    rw [hbody]
    rfl

theorem take_cons_ne (c a : Char) (x rest : List Char) (n : Nat) (h : ¬ c = a) :
    ¬ (c :: x).take n = a :: rest := by
  cases n with
  | zero => simp
  | succ k =>
    simp only [List.take_succ_cons]
    intro hEq
    exact h (List.head_eq_of_cons_eq hEq)

theorem numLitOk_head (l : List Char) (hl : NumLitOk l) :
    ∃ c t, l = c :: t ∧ (c = '-' ∨ c.isDigit = true) := by
  obtain ⟨neg, ip, fr, ex, rfl, hneg, hip, _, _⟩ := hl
  have hipne : ip ≠ [] := by
    rcases hip with h0 | ⟨hne, _, _⟩
    · subst h0
      simp
    · exact hne
  obtain ⟨d, ds, rfl⟩ : ∃ d ds, ip = d :: ds := by
    cases ip with
    | nil => exact absurd rfl hipne
    | cons d ds => exact ⟨d, ds, rfl⟩
  have hd : d.isDigit = true := by
    rcases hip with h0 | ⟨_, hall, _⟩
    · rw [show d = '0' from List.head_eq_of_cons_eq h0] 
      decide
    · simp only [List.all_cons, Bool.and_eq_true] at hall
      exact hall.1
  rcases hneg with h0 | h1
  · subst h0
    exact ⟨d, ds ++ fr ++ ex, by simp [List.cons_append, List.append_assoc], Or.inr hd⟩
  · subst h1
    exact ⟨'-', (d :: ds) ++ fr ++ ex, by simp [List.cons_append, List.append_assoc],
      Or.inl rfl⟩

theorem parseScalar_null (r : List Char) :
    parseScalar (['n', 'u', 'l', 'l'] ++ r) = some (JVal.null, r) := by
  simp [parseScalar, List.take_succ_cons, List.drop_succ_cons]

theorem parseScalar_str (s r : List Char) :
    parseScalar (jstrDump s ++ r) = some (JVal.str s, r) := by
  have hshape : jstrDump s ++ r = '"' :: (escStr s ++ ('"' :: r)) := by
    simp [jstrDump]
  rw [hshape]
  unfold parseScalar
  rw [if_neg (take_cons_ne '"' 'n' _ _ 4 (by decide)),
    if_neg (take_cons_ne '"' 't' _ _ 4 (by decide)),
    if_neg (take_cons_ne '"' 'f' _ _ 5 (by decide)),
    if_pos (by rfl : ('"' :: (escStr s ++ ('"' :: r))).head? = some '"')]
  simp only [List.tail_cons]
  rw [parseJString_escape s r]
  rfl

theorem parseScalar_num (lit r : List Char) (hlit : NumLitOk lit) (hr : NumBoundary r) :
    parseScalar (lit ++ r) = some (JVal.num lit, r) := by
  obtain ⟨c, t, hlc, hcd⟩ := numLitOk_head lit hlit
  have hn : ¬ c = 'n' := by
    rcases hcd with h1 | h1
    · subst h1
      decide
    · exact digit_ne c 'n' h1 (by decide)
  have ht : ¬ c = 't' := by
    rcases hcd with h1 | h1
    · subst h1
      decide
    · exact digit_ne c 't' h1 (by decide)
  have hf : ¬ c = 'f' := by
    rcases hcd with h1 | h1
    · subst h1
      decide
    · exact digit_ne c 'f' h1 (by decide)
  have hqc : ¬ c = '"' := by
    rcases hcd with h1 | h1
    · subst h1
      decide
    · exact digit_ne c '"' h1 (by decide)
  unfold parseScalar
  rw [if_neg (by rw [hlc, List.cons_append]; exact take_cons_ne c 'n' _ _ 4 hn)]
  rw [if_neg (by rw [hlc, List.cons_append]; exact take_cons_ne c 't' _ _ 4 ht)]
  rw [if_neg (by rw [hlc, List.cons_append]; exact take_cons_ne c 'f' _ _ 5 hf)]
  rw [if_neg (by
    rw [hlc, List.cons_append]
    simp only [List.head?_cons, Option.some.injEq]
    exact hqc)]
  rw [parseNumLit_spec lit r hlit hr]

theorem skipWs_cons (c : Char) (r : List Char) (h : isJsonWs c = false) :
    skipWs (c :: r) = c :: r := by
  simp [skipWs, List.dropWhile_cons, h]

theorem skipWs_space (r : List Char) : skipWs (' ' :: r) = skipWs r := by
  simp [skipWs, List.dropWhile_cons, show isJsonWs ' ' = true from rfl]

/-- One `"key": value,` member step of the object scanner, generic in the
value parser `vp` (the continuation after the comma and its following
space is scanned with one less unit of fuel). -/
theorem parseMembersAux_step_comma (vp : List Char → Option (JVal × List Char))
    (k : Nat) (key vdump tail : List Char) (v : JVal)
    (hkey : escStr key = key)
    (hnw : skipWs (vdump ++ (',' :: ' ' :: tail)) = vdump ++ (',' :: ' ' :: tail))
    (hval : vp (vdump ++ (',' :: ' ' :: tail)) = some (v, ',' :: ' ' :: tail)) :
    parseMembersAux vp (k + 1)
        ('"' :: (key ++ ('"' :: ':' :: ' ' :: (vdump ++ (',' :: ' ' :: tail))))) =
      (parseMembersAux vp k (' ' :: tail)).map (fun p => ((key, v) :: p.1, p.2)) := by
  simp only [parseMembersAux]
  rw [skipWs_cons '"' _ (by decide)]
  rw [if_pos (by rfl : ('"' :: (key ++ ('"' :: ':' :: ' ' :: (vdump ++ (',' :: ' ' :: tail))))).head?
    = some '"')]
  simp only [List.tail_cons]
  rw [show key ++ ('"' :: ':' :: ' ' :: (vdump ++ (',' :: ' ' :: tail))) =
    escStr key ++ ('"' :: (':' :: ' ' :: (vdump ++ (',' :: ' ' :: tail)))) by rw [hkey]]
  rw [parseJString_escape key _]
  dsimp only
  rw [skipWs_cons ':' _ (by decide)]
  rw [if_pos (by rfl : (':' :: ' ' :: (vdump ++ (',' :: ' ' :: tail))).head? = some ':')]
  simp only [List.tail_cons]
  rw [skipWs_space, hnw, hval]
  dsimp only
  rw [skipWs_cons ',' _ (by decide)]
  rw [if_pos (by rfl : (',' :: ' ' :: tail).head? = some ',')]
  simp only [List.tail_cons]

/-- The final `"key": value}` member step of the object scanner. -/
theorem parseMembersAux_step_last (vp : List Char → Option (JVal × List Char))
    (k : Nat) (key vdump tail : List Char) (v : JVal)
    (hkey : escStr key = key)
    (hnw : skipWs (vdump ++ ('}' :: tail)) = vdump ++ ('}' :: tail))
    (hval : vp (vdump ++ ('}' :: tail)) = some (v, '}' :: tail)) :
    parseMembersAux vp (k + 1)
        ('"' :: (key ++ ('"' :: ':' :: ' ' :: (vdump ++ ('}' :: tail))))) =
      some ([(key, v)], tail) := by
  simp only [parseMembersAux]
  rw [skipWs_cons '"' _ (by decide)]
  rw [if_pos (by rfl : ('"' :: (key ++ ('"' :: ':' :: ' ' :: (vdump ++ ('}' :: tail))))).head?
    = some '"')]
  simp only [List.tail_cons]
  rw [show key ++ ('"' :: ':' :: ' ' :: (vdump ++ ('}' :: tail))) =
    escStr key ++ ('"' :: (':' :: ' ' :: (vdump ++ ('}' :: tail)))) by rw [hkey]]
  rw [parseJString_escape key _]
  dsimp only
  rw [skipWs_cons ':' _ (by decide)]
  rw [if_pos (by rfl : (':' :: ' ' :: (vdump ++ ('}' :: tail))).head? = some ':')]
  simp only [List.tail_cons]
  rw [skipWs_space, hnw, hval]
  dsimp only
  rw [skipWs_cons '}' _ (by decide)]
  rw [if_neg (by simp : ¬ ('}' :: tail).head? = some ',')]
  rw [if_pos (by rfl : ('}' :: tail).head? = some '}')]
  simp only [List.tail_cons]

theorem isJsonWs_false_of_digit (c : Char) (h : c.isDigit = true) : isJsonWs c = false := by
  unfold isJsonWs
  have h1 : ¬ c = ' ' := digit_ne c ' ' h (by decide)
  have h2 : ¬ c = '\t' := digit_ne c '\t' h (by decide)
  have h3 : ¬ c = '\n' := digit_ne c '\n' h (by decide)
  have h4 : ¬ c = '\r' := digit_ne c '\r' h (by decide)
  simp [h1, h2, h3, h4]

theorem skipWs_numLit (now X : List Char) (hnow : NumLitOk now) :
    skipWs (now ++ X) = now ++ X := by
  obtain ⟨c, t, hct, hcd⟩ := numLitOk_head now hnow
  rw [hct, List.cons_append]
  apply skipWs_cons
  rcases hcd with h1 | h1
  · subst h1
    decide
  · exact isJsonWs_false_of_digit c h1

theorem numBoundary_comma (X : List Char) : NumBoundary (',' :: X) := by
  intro c hc
  simp only [List.head?_cons, Option.some.injEq] at hc
  subst hc
  refine ⟨by decide, by decide, by decide, by decide⟩

theorem skipWs_jstrDump (s X : List Char) : skipWs (jstrDump s ++ X) = jstrDump s ++ X := by
  rw [show jstrDump s ++ X = '"' :: (escStr s ++ ('"' :: X)) by simp [jstrDump]]
  exact skipWs_cons '"' _ (by decide)

theorem skipWs_dumpFp (fp : Option String) (X : List Char) :
    skipWs (dumpFp fp ++ X) = dumpFp fp ++ X := by
  cases fp with
  | none => exact skipWs_cons 'n' _ (by decide)
  | some p => exact skipWs_jstrDump p.data X

theorem parseScalar_dumpFp (fp : Option String) (X : List Char) :
    parseScalar (dumpFp fp ++ X) = some (jvalOfFp fp, X) := by
  cases fp with
  | none => exact parseScalar_null X
  | some p => exact parseScalar_str p.data X

/-- On input that (already whitespace-free) starts with neither `{` nor
`[`, one unit of `parseValueAux` fuel reduces to the scalar scanner. -/
theorem parseValueAux_scalar (g : Nat) (l : List Char) (hw : skipWs l = l)
    (h1 : l.head? ≠ some '{') (h2 : l.head? ≠ some '[') :
    parseValueAux (g + 1) l = parseScalar l := by
  simp only [parseValueAux]
  rw [hw, if_neg h1, if_neg h2]

theorem parseValueAux_jstr (g : Nat) (s X : List Char) :
    parseValueAux (g + 1) (jstrDump s ++ X) = some (JVal.str s, X) := by
  have h1 : (jstrDump s ++ X).head? ≠ some '{' := by
    rw [show jstrDump s ++ X = '"' :: (escStr s ++ ('"' :: X)) by simp [jstrDump]]
    simp only [List.head?_cons]
    decide
  have h2 : (jstrDump s ++ X).head? ≠ some '[' := by
    rw [show jstrDump s ++ X = '"' :: (escStr s ++ ('"' :: X)) by simp [jstrDump]]
    simp only [List.head?_cons]
    decide
  rw [parseValueAux_scalar g _ (skipWs_jstrDump s X) h1 h2]
  exact parseScalar_str s X

theorem parseValueAux_dumpFp (g : Nat) (fp : Option String) (X : List Char) :
    parseValueAux (g + 1) (dumpFp fp ++ X) = some (jvalOfFp fp, X) := by
  cases fp with
  | none =>
    have h1 : (dumpFp none ++ X).head? ≠ some '{' := by
      simp [dumpFp]
    have h2 : (dumpFp none ++ X).head? ≠ some '[' := by
      simp [dumpFp]
    rw [parseValueAux_scalar g _ (skipWs_dumpFp none X) h1 h2]
    exact parseScalar_dumpFp none X
  | some p => exact parseValueAux_jstr g p.data X

theorem parseValueAux_num (g : Nat) (lit X : List Char) (hlit : NumLitOk lit)
    (hX : NumBoundary X) :
    parseValueAux (g + 1) (lit ++ X) = some (JVal.num lit, X) := by
  obtain ⟨c, t, hct, hcd⟩ := numLitOk_head lit hlit
  have h1 : (lit ++ X).head? ≠ some '{' := by
    rw [hct, List.cons_append, List.head?_cons]
    intro h
    have hc := Option.some.inj h
    rcases hcd with h2 | h2 <;> (rw [hc] at h2; exact absurd h2 (by decide))
  have h2 : (lit ++ X).head? ≠ some '[' := by
    rw [hct, List.cons_append, List.head?_cons]
    intro h
    have hc := Option.some.inj h
    rcases hcd with h2 | h2 <;> (rw [hc] at h2; exact absurd h2 (by decide))
  rw [parseValueAux_scalar g _ (skipWs_numLit lit X hlit) h1 h2]
  exact parseScalar_num lit X hlit hX

/-- One step of the value scanner on an object opener, with the fuel left
opaque so only a single level unfolds. -/
theorem parseValueAux_obj_step (g : Nat) (l : List Char) (hw : skipWs l = l)
    (hh : l.head? = some '{') :
    parseValueAux (g + 1) l =
      (parseObjBody (parseValueAux g) l.tail).map (fun p => (JVal.obj p.1, p.2)) := by
  simp only [parseValueAux]
  rw [hw, if_pos hh]

theorem parseObjBody_members (vp : List Char → Option (JVal × List Char)) (l : List Char)
    (hw : skipWs l = l) (hh : l.head? ≠ some '}') :
    parseObjBody vp l = parseMembersAux vp (l.length + 1) l := by
  simp only [parseObjBody]
  rw [hw, if_neg hh]

theorem parseMembersAux_space (vp : List Char → Option (JVal × List Char)) (f : Nat)
    (l : List Char) : parseMembersAux vp f (' ' :: l) = parseMembersAux vp f l := by
  cases f with
  | zero => rfl
  | succ k => simp only [parseMembersAux, skipWs_space]

theorem snapMember4 (text : List Char) (g k : Nat) :
    parseMembersAux (parseValueAux (g + 1)) (k + 1)
      ('"' :: 't' :: 'e' :: 'x' :: 't' :: '"' :: ':' :: ' ' :: (jstrDump text ++ '}' :: [])) =
      some ([(['t', 'e', 'x', 't'], JVal.str text)], []) := by
  have h := parseMembersAux_step_last (parseValueAux (g + 1)) k ['t', 'e', 'x', 't']
    (jstrDump text) [] (JVal.str text)
    (by decide) (skipWs_jstrDump text ('}' :: [])) (parseValueAux_jstr g text ('}' :: []))
  simpa using h

theorem snapMember3 (id text : List Char) (g k : Nat) :
    parseMembersAux (parseValueAux (g + 1)) (k + 1 + 1)
      ('"' :: 'a' :: 'u' :: 't' :: 'o' :: 's' :: 'a' :: 'v' :: 'e' :: '_' :: 'i' :: 'd' ::
        '"' :: ':' :: ' ' :: (jstrDump id ++ (',' :: ' ' ::
          ('"' :: 't' :: 'e' :: 'x' :: 't' :: '"' :: ':' :: ' ' ::
            (jstrDump text ++ '}' :: []))))) =
      some ([(['a', 'u', 't', 'o', 's', 'a', 'v', 'e', '_', 'i', 'd'], JVal.str id),
        (['t', 'e', 'x', 't'], JVal.str text)], []) := by
  have h := parseMembersAux_step_comma (parseValueAux (g + 1)) (k + 1)
    ['a', 'u', 't', 'o', 's', 'a', 'v', 'e', '_', 'i', 'd'] (jstrDump id)
    ('"' :: 't' :: 'e' :: 'x' :: 't' :: '"' :: ':' :: ' ' :: (jstrDump text ++ '}' :: []))
    (JVal.str id) (by decide) (skipWs_jstrDump id _) (parseValueAux_jstr g id _)
  rw [parseMembersAux_space, snapMember4 text g k] at h
  simpa using h

theorem snapMember2 (fp : Option String) (id text : List Char) (g k : Nat) :
    parseMembersAux (parseValueAux (g + 1)) (k + 1 + 1 + 1)
      ('"' :: 'f' :: 'i' :: 'l' :: 'e' :: 'p' :: 'a' :: 't' :: 'h' :: '"' :: ':' :: ' ' ::
        (dumpFp fp ++ (',' :: ' ' ::
          ('"' :: 'a' :: 'u' :: 't' :: 'o' :: 's' :: 'a' :: 'v' :: 'e' :: '_' :: 'i' :: 'd' ::
            '"' :: ':' :: ' ' :: (jstrDump id ++ (',' :: ' ' ::
              ('"' :: 't' :: 'e' :: 'x' :: 't' :: '"' :: ':' :: ' ' ::
                (jstrDump text ++ '}' :: [])))))))) =
      some ([(['f', 'i', 'l', 'e', 'p', 'a', 't', 'h'], jvalOfFp fp),
        (['a', 'u', 't', 'o', 's', 'a', 'v', 'e', '_', 'i', 'd'], JVal.str id),
        (['t', 'e', 'x', 't'], JVal.str text)], []) := by
  have h := parseMembersAux_step_comma (parseValueAux (g + 1)) (k + 1 + 1)
    ['f', 'i', 'l', 'e', 'p', 'a', 't', 'h'] (dumpFp fp)
    ('"' :: 'a' :: 'u' :: 't' :: 'o' :: 's' :: 'a' :: 'v' :: 'e' :: '_' :: 'i' :: 'd' ::
      '"' :: ':' :: ' ' :: (jstrDump id ++ (',' :: ' ' ::
        ('"' :: 't' :: 'e' :: 'x' :: 't' :: '"' :: ':' :: ' ' :: (jstrDump text ++ '}' :: [])))))
    (jvalOfFp fp) (by decide) (skipWs_dumpFp fp _) (parseValueAux_dumpFp g fp _)
  rw [parseMembersAux_space, snapMember3 id text g k] at h
  simpa using h

theorem snapMember1 (now : List Char) (fp : Option String) (id text : List Char)
    (hnow : NumLitOk now) (g k : Nat) :
    parseMembersAux (parseValueAux (g + 1)) (k + 1 + 1 + 1 + 1)
      ('"' :: 't' :: 'i' :: 'm' :: 'e' :: '"' :: ':' :: ' ' :: (now ++ (',' :: ' ' ::
        ('"' :: 'f' :: 'i' :: 'l' :: 'e' :: 'p' :: 'a' :: 't' :: 'h' :: '"' :: ':' :: ' ' ::
          (dumpFp fp ++ (',' :: ' ' ::
            ('"' :: 'a' :: 'u' :: 't' :: 'o' :: 's' :: 'a' :: 'v' :: 'e' :: '_' :: 'i' :: 'd' ::
              '"' :: ':' :: ' ' :: (jstrDump id ++ (',' :: ' ' ::
                ('"' :: 't' :: 'e' :: 'x' :: 't' :: '"' :: ':' :: ' ' ::
                  (jstrDump text ++ '}' :: []))))))))))) =
      some (snapMembers now fp id text, []) := by
  have h := parseMembersAux_step_comma (parseValueAux (g + 1)) (k + 1 + 1 + 1)
    ['t', 'i', 'm', 'e'] now
    ('"' :: 'f' :: 'i' :: 'l' :: 'e' :: 'p' :: 'a' :: 't' :: 'h' :: '"' :: ':' :: ' ' ::
      (dumpFp fp ++ (',' :: ' ' ::
        ('"' :: 'a' :: 'u' :: 't' :: 'o' :: 's' :: 'a' :: 'v' :: 'e' :: '_' :: 'i' :: 'd' ::
          '"' :: ':' :: ' ' :: (jstrDump id ++ (',' :: ' ' ::
            ('"' :: 't' :: 'e' :: 'x' :: 't' :: '"' :: ':' :: ' ' ::
              (jstrDump text ++ '}' :: []))))))))
    (JVal.num now) (by decide)
    (skipWs_numLit now _ hnow)
    (parseValueAux_num g now _ hnow (numBoundary_comma _))
  rw [parseMembersAux_space, snapMember2 fp id text g k] at h
  simpa [snapMembers] using h

theorem parseJson_snapshot (now : List Char) (fp : Option String) (id text : List Char)
    (hnow : NumLitOk now) :
    parseJson (dumpsSnapshotL now fp id text) =
      some (JVal.obj (snapMembers now fp id text)) := by
  have hshape : dumpsSnapshotL now fp id text =
      '{' :: '"' :: 't' :: 'i' :: 'm' :: 'e' :: '"' :: ':' :: ' ' :: (now ++ (',' :: ' ' ::
        ('"' :: 'f' :: 'i' :: 'l' :: 'e' :: 'p' :: 'a' :: 't' :: 'h' :: '"' :: ':' :: ' ' ::
          (dumpFp fp ++ (',' :: ' ' ::
            ('"' :: 'a' :: 'u' :: 't' :: 'o' :: 's' :: 'a' :: 'v' :: 'e' :: '_' :: 'i' :: 'd' ::
              '"' :: ':' :: ' ' :: (jstrDump id ++ (',' :: ' ' ::
                ('"' :: 't' :: 'e' :: 'x' :: 't' :: '"' :: ':' :: ' ' ::
                  (jstrDump text ++ '}' :: [])))))))))) := by
    simp [dumpsSnapshotL, List.cons_append, List.append_assoc]
  have hvalue : parseValue (dumpsSnapshotL now fp id text) =
      some (JVal.obj (snapMembers now fp id text), []) := by
    rw [hshape]
    show parseValueAux
      (('"' :: 't' :: 'i' :: 'm' :: 'e' :: '"' :: ':' :: ' ' :: (now ++ (',' :: ' ' ::
        ('"' :: 'f' :: 'i' :: 'l' :: 'e' :: 'p' :: 'a' :: 't' :: 'h' :: '"' :: ':' :: ' ' ::
          (dumpFp fp ++ (',' :: ' ' ::
            ('"' :: 'a' :: 'u' :: 't' :: 'o' :: 's' :: 'a' :: 'v' :: 'e' :: '_' :: 'i' :: 'd' ::
              '"' :: ':' :: ' ' :: (jstrDump id ++ (',' :: ' ' ::
                ('"' :: 't' :: 'e' :: 'x' :: 't' :: '"' :: ':' :: ' ' ::
                  (jstrDump text ++ '}' :: []))))))))))).length + 1 + 1) _ = _
    rw [parseValueAux_obj_step _ _ (skipWs_cons '{' _ (by decide)) (by rw [List.head?_cons])]
    simp only [List.tail_cons]
    rw [parseObjBody_members _ _ (skipWs_cons '"' _ (by decide))
      (by rw [List.head?_cons]; decide)]
    obtain ⟨m, hm⟩ : ∃ m,
        ('"' :: 't' :: 'i' :: 'm' :: 'e' :: '"' :: ':' :: ' ' :: (now ++ (',' :: ' ' ::
          ('"' :: 'f' :: 'i' :: 'l' :: 'e' :: 'p' :: 'a' :: 't' :: 'h' :: '"' :: ':' :: ' ' ::
            (dumpFp fp ++ (',' :: ' ' ::
              ('"' :: 'a' :: 'u' :: 't' :: 'o' :: 's' :: 'a' :: 'v' :: 'e' :: '_' :: 'i' :: 'd' ::
                '"' :: ':' :: ' ' :: (jstrDump id ++ (',' :: ' ' ::
                  ('"' :: 't' :: 'e' :: 'x' :: 't' :: '"' :: ':' :: ' ' ::
                    (jstrDump text ++ '}' :: []))))))))))).length + 1 = m + 1 + 1 + 1 + 1 := by
      refine ⟨('"' :: 't' :: 'i' :: 'm' :: 'e' :: '"' :: ':' :: ' ' :: (now ++ (',' :: ' ' ::
        ('"' :: 'f' :: 'i' :: 'l' :: 'e' :: 'p' :: 'a' :: 't' :: 'h' :: '"' :: ':' :: ' ' ::
          (dumpFp fp ++ (',' :: ' ' ::
            ('"' :: 'a' :: 'u' :: 't' :: 'o' :: 's' :: 'a' :: 'v' :: 'e' :: '_' :: 'i' :: 'd' ::
              '"' :: ':' :: ' ' :: (jstrDump id ++ (',' :: ' ' ::
                ('"' :: 't' :: 'e' :: 'x' :: 't' :: '"' :: ':' :: ' ' ::
                  (jstrDump text ++ '}' :: []))))))))))).length - 3, ?_⟩
      simp only [List.length_cons, List.length_append]
      omega
    rw [hm]
    rw [snapMember1 now fp id text hnow (m + 1 + 1 + 1) m]
    rfl
  unfold parseJson
  rw [hvalue]
  rfl

theorem readSnapshot_dumps (now : List Char) (fp : Option String) (id text : List Char)
    (hnow : NumLitOk now) :
    readSnapshot (dumpsSnapshotL now fp id text) = RecoverParse.ok (String.mk text) fp := by
  unfold readSnapshot
  rw [parseJson_snapshot now fp id text hnow]
  simp only [snapMembers, lookupMember, List.foldl_cons, List.foldl_nil]
  rw [if_neg (by decide : ¬ (['t', 'i', 'm', 'e'] : List Char) = ['t', 'e', 'x', 't'])]
  rw [if_neg (by decide :
    ¬ (['f', 'i', 'l', 'e', 'p', 'a', 't', 'h'] : List Char) = ['t', 'e', 'x', 't'])]
  rw [if_neg (by decide :
    ¬ (['a', 'u', 't', 'o', 's', 'a', 'v', 'e', '_', 'i', 'd'] : List Char) = ['t', 'e', 'x', 't'])]
  simp only [if_true]
  unfold readFilepath
  simp only [lookupMember, List.foldl_cons, List.foldl_nil]
  rw [if_neg (by decide :
    ¬ (['t', 'i', 'm', 'e'] : List Char) = ['f', 'i', 'l', 'e', 'p', 'a', 't', 'h'])]
  simp only [if_true]
  rw [if_neg (by decide :
    ¬ (['a', 'u', 't', 'o', 's', 'a', 'v', 'e', '_', 'i', 'd'] : List Char)
      = ['f', 'i', 'l', 'e', 'p', 'a', 't', 'h'])]
  rw [if_neg (by decide :
    ¬ (['t', 'e', 'x', 't'] : List Char) = ['f', 'i', 'l', 'e', 'p', 'a', 't', 'h'])]
  cases fp with
  | none => rfl
  | some p => rfl

/-- Claim C2: writing a snapshot for a document and reading it back during
recovery yields exactly the document's text (and file path), byte for byte;
at the JSON level the serialized object decodes to exactly the four written
fields — timestamp literal, file path, session id and text. -/
theorem C2_snapshot_roundtrip (now : List Char) (d : Document) (hnow : NumLitOk now) :
    readSnapshot (snapshotJson now d).data = RecoverParse.ok d.text d.filepath ∧
    parseJson (snapshotJson now d).data =
      some (JVal.obj (snapMembers now d.filepath d.autosave_id.data d.text.data)) := by
  constructor
  · exact readSnapshot_dumps now d.filepath d.autosave_id.data d.text.data hnow
  · exact parseJson_snapshot now d.filepath d.autosave_id.data d.text.data hnow

theorem C2_snapshot_roundtrip_witness :
    readSnapshot (snapshotJson ['1', '.', '5']
        (Document.mk (some "f") "draft content" true "h" "i")).data =
      RecoverParse.ok "draft content" (some "f") ∧
    parseJson (snapshotJson ['1', '.', '5']
        (Document.mk (some "f") "draft content" true "h" "i")).data =
      some (JVal.obj (snapMembers ['1', '.', '5'] (some "f") "i".data "draft content".data)) :=
  C2_snapshot_roundtrip ['1', '.', '5'] (Document.mk (some "f") "draft content" true "h" "i")
    ⟨[], ['1'], ['.', '5'], [], by decide, Or.inl rfl,
      Or.inr ⟨by decide, by decide, by decide⟩,
      Or.inr ⟨['5'], rfl, by decide, by decide⟩, Or.inl rfl⟩

/-- Claim C3: recovering from a readable snapshot appends one new Document
whose text is exactly the snapshot's text and whose file path is the
snapshot's file path, with the dirty flag set; the filesystem is returned
untouched and the only filesystem operation performed is the read. -/
theorem C3_recover (fs : FS) (docs : List Document) (path c seed : String)
    (t : String) (fp : Option String) (h : readSnapshot c.data = RecoverParse.ok t fp) :
    recover_from fs docs path (some c) seed =
      (fs, docs ++ [(mkDocument fp t seed).set_dirty true], RecoverOutcome.recovered,
        [FsOp.read path]) ∧
    ((mkDocument fp t seed).set_dirty true).get_text = t ∧
    ((mkDocument fp t seed).set_dirty true).filepath = fp ∧
    ((mkDocument fp t seed).set_dirty true).dirty = true := by
  refine ⟨?_, rfl, rfl, rfl⟩
  simp only [recover_from, h]

theorem C3_recover_witness :
    recover_from (FS.mk [] []) [] "p"
        (some (String.mk ['{', '"', 't', 'e', 'x', 't', '"', ':', ' ',
          '"', 'd', 'r', 'a', 'f', 't', '"', '}'])) "s" =
      ((FS.mk [] []),
        [] ++ [(mkDocument none "draft" "s").set_dirty true], RecoverOutcome.recovered,
        [FsOp.read "p"]) ∧
    ((mkDocument none "draft" "s").set_dirty true).get_text = "draft" ∧
    ((mkDocument none "draft" "s").set_dirty true).filepath = none ∧
    ((mkDocument none "draft" "s").set_dirty true).dirty = true :=
  C3_recover (FS.mk [] []) [] "p"
    (String.mk ['{', '"', 't', 'e', 'x', 't', '"', ':', ' ', '"', 'd', 'r', 'a', 'f', 't', '"', '}'])
    "s" "draft" none (by decide)

